import Mathlib

/-!
Verification development for the MatrixFlow parametric transition-duct
generator and its verification harness.

The geometric core (path construction, cross-section sampling, loft,
extension segments and the hollow shell) is not shipped with the
repository: only the test harness is.  Those components are therefore
modelled from the design specification, faithfully to its component
contracts.  The command-line driver `generate_stl` of the harness is
embedded directly from the harness source.
-/

namespace MatrixFlow

/-! ### Combinatorial layer: the closed quad-torus triangulation

The hollow duct's boundary is a closed surface of torus topology: the
outer shell rings, the top annular cap, the inner shell rings and the
bottom annular cap form one cyclic sequence of `R` rings with `n`
samples each, consecutive rings joined by a strip of `n` quads, each
quad split into two triangles. -/

/-- Vertices of the combinatorial closed quad torus with `R` rings of
`n` samples: a cyclic ring index and a cyclic sample index. -/
abbrev TorusV (R n : ℕ) := ZMod R × ZMod n

/-- Triangle `(i, j, b)` of the torus triangulation: quad `(i, j)` has
corners `a = (i,j)`, `b = (i+1,j)`, `c = (i+1,j+1)`, `d = (i,j+1)` and
is cut into the triangles `(a, b, c)` (tag `false`) and `(a, c, d)`
(tag `true`); the map sends a corner slot `k` to its vertex. -/
def torusTri (R n : ℕ) (i : ZMod R) (j : ZMod n) (b : Bool) (k : Fin 3) :
    TorusV R n :=
  if b then
    (if k = 0 then (i, j) else if k = 1 then (i + 1, j + 1) else (i, j + 1))
  else
    (if k = 0 then (i, j) else if k = 1 then (i + 1, j) else (i + 1, j + 1))

/-- A directed-edge slot of the torus triangulation: a quad, a triangle
tag, and the index of the edge's first corner inside that triangle. -/
abbrev TriSlot (R n : ℕ) := (ZMod R × ZMod n) × Bool × Fin 3

/-- The directed edge held by a slot: corner `k` to corner `k + 1` of
the slot's triangle. -/
def slotEdge (R n : ℕ) (x : TriSlot R n) : TorusV R n × TorusV R n :=
  (torusTri R n x.1.1 x.1.2 x.2.1 x.2.2,
   torusTri R n x.1.1 x.1.2 x.2.1 (x.2.2 + 1))

/-- The three displacement values `0`, `1`, `-1` realised by torus
edges, coded by `Fin 3`. -/
def signVal (m : ℕ) (k : Fin 3) : ZMod m :=
  if k = 0 then 0 else if k = 1 then 1 else -1

/-- Displacement code of each directed-edge slot: first component in
the ring direction, second in the sample direction. -/
def deltaCode (b : Bool) (k : Fin 3) : Fin 3 × Fin 3 :=
  if b then (if k = 0 then (1, 1) else if k = 1 then (2, 0) else (0, 2))
  else (if k = 0 then (1, 0) else if k = 1 then (0, 1) else (2, 2))

/-- Offset from the quad anchor to the source vertex of each slot. -/
def srcOff (R n : ℕ) (b : Bool) (k : Fin 3) : TorusV R n :=
  if b then (if k = 0 then (0, 0) else if k = 1 then (1, 1) else (0, 1))
  else (if k = 0 then (0, 0) else if k = 1 then (1, 0) else (1, 1))

/-- Displacement (target minus source) of each directed-edge slot. -/
def edgeDelta (R n : ℕ) (b : Bool) (k : Fin 3) : TorusV R n :=
  (signVal R (deltaCode b k).1, signVal n (deltaCode b k).2)

/-- Number of triangle slots of the torus mesh holding a given directed
edge. -/
def edgeCount (R n : ℕ) [NeZero R] [NeZero n]
    (e : TorusV R n × TorusV R n) : ℕ :=
  (Finset.univ.filter fun x : TriSlot R n => slotEdge R n x = e).card

/-- The slot holding the reverse of a given slot's directed edge. -/
def revSlot (R n : ℕ) (x : TriSlot R n) : TriSlot R n :=
  if x.2.1 then
    (if x.2.2 = 0 then (x.1, false, 2)
     else if x.2.2 = 1 then ((x.1.1, x.1.2 + 1), false, 0)
     else ((x.1.1 - 1, x.1.2), false, 1))
  else
    (if x.2.2 = 0 then ((x.1.1, x.1.2 - 1), true, 1)
     else if x.2.2 = 1 then ((x.1.1 + 1, x.1.2), true, 2)
     else (x.1, true, 0))

/-! ### Geometric layer

Modelled from the spec: the generator core (`matrixflow.scad`) is not in
the repository, so PathBuilder, CrossSectionFactory, the Loft Engine,
the Extension Appender and the Shell Engine are modelled here from the
specification's component contracts. -/

/-- A point or vector in 3-space. -/
@[ext] structure V3 where
  x : ℝ
  y : ℝ
  z : ℝ

instance : Add V3 := ⟨fun a b => ⟨a.x + b.x, a.y + b.y, a.z + b.z⟩⟩

instance : Sub V3 := ⟨fun a b => ⟨a.x - b.x, a.y - b.y, a.z - b.z⟩⟩

instance : SMul ℝ V3 := ⟨fun c a => ⟨c * a.x, c * a.y, c * a.z⟩⟩

/-- Planar cross product: the z component of the cross product of two
planar vectors. -/
def cross2 (a b : ℝ × ℝ) : ℝ := a.1 * b.2 - a.2 * b.1

/-- Cross product in 3-space. -/
def cross3 (a b : V3) : V3 :=
  ⟨a.y * b.z - a.z * b.y, a.z * b.x - a.x * b.z, a.x * b.y - a.y * b.x⟩

/-- Euclidean norm in 3-space. -/
noncomputable def norm3 (v : V3) : ℝ := Real.sqrt (v.x ^ 2 + v.y ^ 2 + v.z ^ 2)

/-- Embed a planar point into the local cross-section plane z = 0. -/
def embed2 (p : ℝ × ℝ) : V3 := ⟨p.1, p.2, 0⟩

/-- Rotation about the X axis by `a` radians. -/
noncomputable def rotX (a : ℝ) (v : V3) : V3 :=
  ⟨v.x, Real.cos a * v.y - Real.sin a * v.z,
   Real.sin a * v.y + Real.cos a * v.z⟩

/-- Rotation about the Y axis by `a` radians. -/
noncomputable def rotY (a : ℝ) (v : V3) : V3 :=
  ⟨Real.cos a * v.x + Real.sin a * v.z, v.y,
   -Real.sin a * v.x + Real.cos a * v.z⟩

/-- Degrees to radians. -/
noncomputable def deg2rad (d : ℝ) : ℝ := d * Real.pi / 180

/-- Cross-section shape tags of the Parameter Set. -/
inductive Shape
  | circle
  | rectangle

/-- Fit modes: `standard` makes the outer boundary match the nominal
width exactly; other modes adjust the boundary by a clearance amount
(modelled from the spec; the exact clearance policy is external). -/
inductive FitMode
  | standard
  | adjusted (c : ℝ)

/-- Modelled from the spec: the immutable Parameter Set of a generation
request.  The spec lists `top_depth`; a symmetric `bottom_depth` is
implied by the CrossSectionFactory contract
`make(shape, width, depth_or_width2, fit_mode, sample_count)`. -/
structure Params where
  transition_height : ℝ
  bottom_extension : ℝ
  top_extension : ℝ
  offset_x : ℝ
  offset_y : ℝ
  angle_x : ℝ
  angle_y : ℝ
  bottom_shape : Shape
  top_shape : Shape
  bottom_width : ℝ
  bottom_depth : ℝ
  top_width : ℝ
  top_depth : ℝ
  wall_thickness : ℝ
  bottom_fit : FitMode
  top_fit : FitMode
  curve_tension : ℝ
  straighten_path : Bool
  fn : ℕ

/-- Cubic ease used by the tension-weighted blend. -/
def smoothstep (t : ℝ) : ℝ := t ^ 2 * (3 - 2 * t)

/-- Tension-controlled blend between linear interpolation and the cubic
ease, governed by `curve_tension`. -/
def tensionBlend (c t : ℝ) : ℝ := (1 - c) * t + c * smoothstep t

/-- Lateral path interpolation: linear when `straighten_path` is set,
tension-weighted otherwise (PathBuilder contract). -/
def pathBlend (p : Params) (t : ℝ) : ℝ :=
  if p.straighten_path then t else tensionBlend p.curve_tension t

/-- Cross-section interpolation parameter at path parameter `t`
(Loft Engine contract). -/
def sectionBlend (p : Params) (t : ℝ) : ℝ := tensionBlend p.curve_tension t

/-- Sample angle of vertex `j` out of `n`: even angular spacing. -/
noncomputable def theta (n j : ℕ) : ℝ := 2 * Real.pi * j / n

/-- Radius of the supporting shape boundary in direction `a`
(CrossSectionFactory contract): for `circle` the radius is `width / 2`
so the outer bounding box width is exactly `width`; for `rectangle` the
boundary of the `width` by `depth` box in polar form. -/
noncomputable def shapeRadius (sh : Shape) (w d a : ℝ) : ℝ :=
  match sh with
  | .circle => w / 2
  | .rectangle => 1 / max (2 * |Real.cos a| / w) (2 * |Real.sin a| / d)

/-- Fit-mode adjustment of a sampled radius. -/
def fitAdjust (f : FitMode) (r : ℝ) : ℝ :=
  match f with
  | .standard => r
  | .adjusted c => r + c

/-- Bottom opening radius in direction `a`. -/
noncomputable def bottomRadius (p : Params) (a : ℝ) : ℝ :=
  fitAdjust p.bottom_fit (shapeRadius p.bottom_shape p.bottom_width p.bottom_depth a)

/-- Top opening radius in direction `a`. -/
noncomputable def topRadius (p : Params) (a : ℝ) : ℝ :=
  fitAdjust p.top_fit (shapeRadius p.top_shape p.top_width p.top_depth a)

/-- Path parameter of station `i`: station `0` is the bottom-extension
ring, stations `1 … fn` sample the pure transition at `t ∈ [0, 1]`, and
station `fn + 1` is the top-extension ring. -/
noncomputable def stationT (p : Params) (i : ℕ) : ℝ :=
  if i = 0 then 0
  else if i ≤ p.fn then ((i : ℝ) - 1) / ((p.fn : ℝ) - 1)
  else 1

/-- Cross-section blend weight at station `i`. -/
noncomputable def stationMix (p : Params) (i : ℕ) : ℝ :=
  sectionBlend p (stationT p i)

/-- Interpolated cross-section radius at station `i`, sample `j`
(index-aligned vertex blend of the two openings). -/
noncomputable def stationRadius (p : Params) (i j : ℕ) : ℝ :=
  (1 - stationMix p i) * bottomRadius p (theta p.fn j) +
    stationMix p i * topRadius p (theta p.fn j)

/-- A planar point at radius `r` in direction `a`. -/
noncomputable def radialPoint (r a : ℝ) : ℝ × ℝ := (r * Real.cos a, r * Real.sin a)

/-- Outer cross-section polygon at station `i` (in the station's local
plane, before placement). -/
noncomputable def stationPoly (p : Params) (i j : ℕ) : ℝ × ℝ :=
  radialPoint (stationRadius p i j) (theta p.fn j)

/-- The bottom opening's polygon as emitted by the CrossSectionFactory. -/
noncomputable def bottomPolygon (p : Params) (j : ℕ) : ℝ × ℝ :=
  radialPoint (bottomRadius p (theta p.fn j)) (theta p.fn j)

/-- Minimal width of a shape (the smaller box extent). -/
noncomputable def minWidth (sh : Shape) (w d : ℝ) : ℝ :=
  match sh with
  | .circle => w
  | .rectangle => min w d

/-- Minimal nominal width of the bottom opening. -/
noncomputable def bottomMinWidth (p : Params) : ℝ :=
  minWidth p.bottom_shape p.bottom_width p.bottom_depth

/-- Minimal nominal width of the top opening. -/
noncomputable def topMinWidth (p : Params) : ℝ :=
  minWidth p.top_shape p.top_width p.top_depth

/-- Smallest cross-section minimal width over the whole loft. -/
noncomputable def minNominal (p : Params) : ℝ :=
  min (bottomMinWidth p) (topMinWidth p)

/-- Interpolated minimal width at station `i`. -/
noncomputable def stationMin (p : Params) (i : ℕ) : ℝ :=
  (1 - stationMix p i) * bottomMinWidth p + stationMix p i * topMinWidth p

/-- Inner-shell scale factor at station `i` (Shell Engine contract: the
inner boundary is the outer cross-section shrunk so the local minimal
width is reduced by twice the wall thickness). -/
noncomputable def stationLam (p : Params) (i : ℕ) : ℝ :=
  (stationMin p i - 2 * p.wall_thickness) / stationMin p i

/-- Local orientation frame at station `i`: exit angles applied by
chained interpolation along the path. -/
noncomputable def stationRot (p : Params) (i : ℕ) (v : V3) : V3 :=
  rotX (stationT p i * deg2rad p.angle_x)
    (rotY (stationT p i * deg2rad p.angle_y) v)

/-- Direction along which the top extension is extruded: the rotated
terminal frame's normal. -/
noncomputable def topAxis (p : Params) : V3 := stationRot p (p.fn + 1) ⟨0, 0, 1⟩

/-- Centerline position of station `i` (PathBuilder contract). -/
noncomputable def stationCenter (p : Params) (i : ℕ) : V3 :=
  if i = 0 then ⟨0, 0, -p.bottom_extension⟩
  else if i ≤ p.fn then
    ⟨pathBlend p (stationT p i) * p.offset_x,
     pathBlend p (stationT p i) * p.offset_y,
     stationT p i * p.transition_height⟩
  else ⟨p.offset_x, p.offset_y, p.transition_height⟩ + p.top_extension • topAxis p

/-- The generated solid boundary data: `S` stations per shell (`fn`
transition stations plus the two extension rings), `n` samples per
ring, and per-station placement, outer polygon and inner scale.  The
boundary triangulation is the closed quad torus on `2 * S` rings. -/
structure MeshData where
  S : ℕ
  n : ℕ
  hS : 3 ≤ S
  hn : 3 ≤ n
  center : ℕ → V3
  rot : ℕ → V3 → V3
  poly : ℕ → ℕ → ℝ × ℝ
  lam : ℕ → ℝ

/-- Assemble the mesh data of a parameter set. -/
noncomputable def build (p : Params) (hfn : 3 ≤ p.fn) : MeshData where
  S := p.fn + 2
  n := p.fn
  hS := by omega
  hn := hfn
  center := stationCenter p
  rot := stationRot p
  poly := stationPoly p
  lam := stationLam p

/-- Modelled from the spec: acceptance conditions checked before mesh
construction.  Wall acceptance rejects any wall thickness reaching half
the smallest cross-section minimal width; exit angles are restricted to
an open quarter turn so the sweep stays monotone; fit adjustments must
leave every sampled radius positive. -/
structure ValidParams (p : Params) : Prop where
  height_pos : 0 < p.transition_height
  bottom_ext_nonneg : 0 ≤ p.bottom_extension
  top_ext_nonneg : 0 ≤ p.top_extension
  bottom_width_pos : 0 < p.bottom_width
  bottom_depth_pos : 0 < p.bottom_depth
  top_width_pos : 0 < p.top_width
  top_depth_pos : 0 < p.top_depth
  wall_pos : 0 < p.wall_thickness
  wall_fits : 2 * p.wall_thickness < minNominal p
  tension_nonneg : 0 ≤ p.curve_tension
  tension_le_one : p.curve_tension ≤ 1
  fnBound : 3 ≤ p.fn
  angle_x_bound : |p.angle_x| < 90
  angle_y_bound : |p.angle_y| < 90
  bottom_radius_pos : ∀ a : ℝ, 0 < bottomRadius p a
  top_radius_pos : ∀ a : ℝ, 0 < topRadius p a

/-- Error classes surfaced by a rejected generation request. -/
inductive GenError
  | configError
  | geometryCollapse

open scoped Classical in
/-- Error reported for a rejected parameter set: wall thickness
exceeding the locally available material is a geometry-collapse error,
anything else a configuration error. -/
noncomputable def rejectError (p : Params) : GenError :=
  if minNominal p < 2 * p.wall_thickness then GenError.geometryCollapse
  else GenError.configError

open scoped Classical in
/-- Modelled from the spec: the generation entry point.  Validation
happens before construction; an accepted Parameter Set yields the solid
boundary mesh, a rejected one fails fast with an error. -/
noncomputable def generate (p : Params) : Except GenError MeshData :=
  if h : ValidParams p then Except.ok (build p h.fnBound)
  else Except.error (rejectError p)

/-! ### Derived mesh measurements -/

/-- Shoelace area of the outer cross-section polygon at station `i`. -/
noncomputable def ringArea (M : MeshData) (i : ℕ) : ℝ :=
  (∑ j ∈ Finset.range M.n, cross2 (M.poly i j) (M.poly i (j + 1))) / 2

/-- Inner cross-section polygon at station `i` (outer polygon scaled by
the wall factor). -/
noncomputable def innerPoly (M : MeshData) (i j : ℕ) : ℝ × ℝ :=
  M.lam i • M.poly i j

/-- Shoelace area of the inner cross-section polygon at station `i`. -/
noncomputable def innerRingArea (M : MeshData) (i : ℕ) : ℝ :=
  (∑ j ∈ Finset.range M.n, cross2 (innerPoly M i j) (innerPoly M i (j + 1))) / 2

/-- Enclosed volume of the hollow solid, by slab decomposition between
consecutive stations (annular cross-section area times centerline
rise). -/
noncomputable def meshVolume (M : MeshData) : ℝ :=
  ∑ i ∈ Finset.range (M.S - 1),
    (ringArea M i - innerRingArea M i) * ((M.center (i + 1)).z - (M.center i).z)

/-- Placed outer-shell vertex of station `i`, sample `j`. -/
noncomputable def outerVertex (M : MeshData) (i j : ℕ) : V3 :=
  M.center i + M.rot i (embed2 (M.poly i j))

/-- Placed inner-shell vertex of station `i`, sample `j`. -/
noncomputable def innerVertex (M : MeshData) (i j : ℕ) : V3 :=
  M.center i + M.rot i (embed2 (innerPoly M i j))

/-- Station and sample index grid. -/
def stationIdx (M : MeshData) : Finset (ℕ × ℕ) :=
  Finset.range M.S ×ˢ Finset.range M.n

/-- The index grid is never empty. -/
def stationIdx_nonempty (M : MeshData) : (stationIdx M).Nonempty := by
  refine ⟨(0, 0), ?_⟩
  have h1 := M.hS
  have h2 := M.hn
  simp [stationIdx]
  omega

/-- Smallest z coordinate over all mesh vertices. -/
noncomputable def meshMinZ (M : MeshData) : ℝ :=
  Finset.inf' (stationIdx M) (stationIdx_nonempty M)
    (fun q => min (outerVertex M q.1 q.2).z (innerVertex M q.1 q.2).z)

/-- Largest z coordinate over all mesh vertices. -/
noncomputable def meshMaxZ (M : MeshData) : ℝ :=
  Finset.sup' (stationIdx M) (stationIdx_nonempty M)
    (fun q => max (outerVertex M q.1 q.2).z (innerVertex M q.1 q.2).z)

/-- Centroid (vertex average over both boundary loops) of the planar
cross-section cut at station `i`. -/
noncomputable def sectionCentroid (M : MeshData) (i : ℕ) : ℝ × ℝ :=
  ((∑ j ∈ Finset.range M.n, ((outerVertex M i j).x + (innerVertex M i j).x)) /
      (2 * M.n),
   (∑ j ∈ Finset.range M.n, ((outerVertex M i j).y + (innerVertex M i j).y)) /
      (2 * M.n))

/-- X coordinates of the section cut at station `i`: outer loop first,
then the inner loop. -/
noncomputable def sliceX (M : MeshData) (i j : ℕ) : ℝ :=
  if j < M.n then (outerVertex M i j).x else (innerVertex M i (j - M.n)).x

/-- Index set of the section cut points. -/
def sliceIdx (M : MeshData) : Finset ℕ := Finset.range (2 * M.n)

/-- The section cut is never empty. -/
def sliceIdx_nonempty (M : MeshData) : (sliceIdx M).Nonempty := by
  refine ⟨0, ?_⟩
  have h2 := M.hn
  simp [sliceIdx]
  omega

/-- Bounding-box width along X of the section cut at station `i`. -/
noncomputable def sliceWidth (M : MeshData) (i : ℕ) : ℝ :=
  Finset.sup' (sliceIdx M) (sliceIdx_nonempty M) (sliceX M i) -
    Finset.inf' (sliceIdx M) (sliceIdx_nonempty M) (sliceX M i)

/-- Face normal (unnormalised) of a top annular cap triangle. -/
noncomputable def capNormal (M : MeshData) (j : ℕ) : V3 :=
  cross3 (outerVertex M (M.S - 1) (j + 1) - outerVertex M (M.S - 1) j)
    (innerVertex M (M.S - 1) (j + 1) - outerVertex M (M.S - 1) j)

/-- Unit face normal of a top annular cap triangle. -/
noncomputable def capUnitNormal (M : MeshData) (j : ℕ) : V3 :=
  (1 / norm3 (capNormal M j)) • capNormal M j

/-- Directed-edge multiplicity in the generated mesh's triangulation
(the closed quad torus on `2 * S` rings of `n` samples). -/
def meshEdgeCount (M : MeshData)
    (e : TorusV (2 * M.S) M.n × TorusV (2 * M.S) M.n) : ℕ :=
  letI : NeZero (2 * M.S) := ⟨by have := M.hS; omega⟩
  letI : NeZero M.n := ⟨by have := M.hn; omega⟩
  edgeCount (2 * M.S) M.n e

/-- Directed edge of a triangle slot of the generated mesh. -/
def meshSlotEdge (M : MeshData) (x : TriSlot (2 * M.S) M.n) :
    TorusV (2 * M.S) M.n × TorusV (2 * M.S) M.n :=
  slotEdge (2 * M.S) M.n x

/-- Spatial position of a combinatorial mesh vertex: ring cycle
`0 … S-1` is the outer shell bottom to top, `S … 2S-1` the inner shell
top back to bottom. -/
noncomputable def meshVertex (M : MeshData) (v : TorusV (2 * M.S) M.n) : V3 :=
  if v.1.val < M.S then outerVertex M v.1.val v.2.val
  else innerVertex M (2 * M.S - 1 - v.1.val) v.2.val

/-! ### Harness driver `generate_stl`, embedded from the test source -/

/-- Python values passed as OpenSCAD `-D` definitions: either a string,
or any other value together with its printed form. -/
inductive PyVal
  | str (s : String)
  | raw (printed : String)

/-- Configured OpenSCAD input file name. -/
def SCAD_FILE : String := "matrixflow.scad"

/-- Temporary STL output file name. -/
def STL_FILE : String := "temp_test_output.stl"

/-- The two command-line tokens a single parameter contributes: a `-D`
flag followed by `key="value"` for strings and `key=value` otherwise. -/
def dFlag : String × PyVal → List String
  | (k, PyVal.str s) => ["-D", k ++ "=\"" ++ s ++ "\""]
  | (k, PyVal.raw r) => ["-D", k ++ "=" ++ r]

/-- Command line built by `generate_stl`: the fixed head (command,
manifold backend flag, output and input files) extended in dict order
with the `-D` tokens of each parameter. -/
def generateStlArgs (cmd : String) (ps : List (String × PyVal)) :
    List String :=
  ps.foldl (fun args kv => args ++ dFlag kv)
    [cmd, "--enable=manifold", "-o", STL_FILE, SCAD_FILE]

/-- Error raised by `subprocess.run` with `check=True` on a non-zero
exit status. -/
inductive RunError
  | calledProcessError

/-- The checked subprocess call of `generate_stl`. -/
def runChecked (exitCode : ℤ) : Except RunError Unit :=
  if exitCode = 0 then Except.ok () else Except.error RunError.calledProcessError

/-- Control flow of `generate_stl` after the command line is built: run
OpenSCAD with `check=True`, then (only on success) load and return the
produced mesh. -/
def generateStlRun {A : Type} (exitCode : ℤ) (loaded : A) :
    Except RunError A :=
  (runChecked exitCode).map fun _ => loaded

/-! ### Concrete parameter sets used by the witnesses -/

/-- An accepted parameter set (the manifold test's scenario, with zero
angles). -/
def pDemo : Params where
  transition_height := 100
  bottom_extension := 0
  top_extension := 0
  offset_x := 60
  offset_y := 60
  angle_x := 0
  angle_y := 0
  bottom_shape := Shape.circle
  top_shape := Shape.circle
  bottom_width := 40
  bottom_depth := 40
  top_width := 40
  top_depth := 40
  wall_thickness := 2
  bottom_fit := FitMode.standard
  top_fit := FitMode.standard
  curve_tension := 0
  straighten_path := false
  fn := 32

/-- The height-and-extensions scenario. -/
def pDemo2 : Params where
  transition_height := 120
  bottom_extension := 25
  top_extension := 35
  offset_x := 0
  offset_y := 0
  angle_x := 0
  angle_y := 0
  bottom_shape := Shape.circle
  top_shape := Shape.circle
  bottom_width := 40
  bottom_depth := 40
  top_width := 40
  top_depth := 40
  wall_thickness := 2
  bottom_fit := FitMode.standard
  top_fit := FitMode.standard
  curve_tension := 0
  straighten_path := false
  fn := 32

/-- The lateral-offsets scenario. -/
def pDemo3 : Params where
  transition_height := 100
  bottom_extension := 0
  top_extension := 10
  offset_x := 75
  offset_y := -40
  angle_x := 0
  angle_y := 0
  bottom_shape := Shape.circle
  top_shape := Shape.circle
  bottom_width := 40
  bottom_depth := 40
  top_width := 40
  top_depth := 40
  wall_thickness := 2
  bottom_fit := FitMode.standard
  top_fit := FitMode.standard
  curve_tension := 0
  straighten_path := false
  fn := 32

/-- The exit-angle scenario. -/
def pDemo4 : Params where
  transition_height := 100
  bottom_extension := 0
  top_extension := 0
  offset_x := 0
  offset_y := 0
  angle_x := 0
  angle_y := 45
  bottom_shape := Shape.circle
  top_shape := Shape.circle
  bottom_width := 40
  bottom_depth := 40
  top_width := 40
  top_depth := 40
  wall_thickness := 2
  bottom_fit := FitMode.standard
  top_fit := FitMode.standard
  curve_tension := 0
  straighten_path := false
  fn := 32

/-- The shapes-and-fit scenario. -/
def pDemo5 : Params where
  transition_height := 100
  bottom_extension := 10
  top_extension := 10
  offset_x := 0
  offset_y := 0
  angle_x := 0
  angle_y := 0
  bottom_shape := Shape.circle
  top_shape := Shape.rectangle
  bottom_width := 40
  bottom_depth := 40
  top_width := 80
  top_depth := 80
  wall_thickness := 2
  bottom_fit := FitMode.standard
  top_fit := FitMode.standard
  curve_tension := 0
  straighten_path := false
  fn := 64

/-- A rejected parameter set: wall thickness far beyond half the
smallest opening width. -/
def pBad6 : Params where
  transition_height := 100
  bottom_extension := 0
  top_extension := 0
  offset_x := 0
  offset_y := 0
  angle_x := 0
  angle_y := 0
  bottom_shape := Shape.circle
  top_shape := Shape.circle
  bottom_width := 40
  bottom_depth := 40
  top_width := 40
  top_depth := 40
  wall_thickness := 30
  bottom_fit := FitMode.standard
  top_fit := FitMode.standard
  curve_tension := 0
  straighten_path := false
  fn := 32

/-- Identical openings: the degenerate straight-prism scenario. -/
def pPrism : Params where
  transition_height := 100
  bottom_extension := 0
  top_extension := 0
  offset_x := 0
  offset_y := 0
  angle_x := 0
  angle_y := 0
  bottom_shape := Shape.rectangle
  top_shape := Shape.rectangle
  bottom_width := 40
  bottom_depth := 40
  top_width := 40
  top_depth := 40
  wall_thickness := 2
  bottom_fit := FitMode.standard
  top_fit := FitMode.standard
  curve_tension := 0
  straighten_path := false
  fn := 4

/-- Same shape and width but different depths for the two openings. -/
def pC7 : Params where
  transition_height := 100
  bottom_extension := 0
  top_extension := 0
  offset_x := 0
  offset_y := 0
  angle_x := 0
  angle_y := 0
  bottom_shape := Shape.rectangle
  top_shape := Shape.rectangle
  bottom_width := 40
  bottom_depth := 40
  top_width := 40
  top_depth := 80
  wall_thickness := 2
  bottom_fit := FitMode.standard
  top_fit := FitMode.standard
  curve_tension := 0
  straighten_path := false
  fn := 4

/-! ### Componentwise vector arithmetic -/

@[simp] lemma V3.add_x (a b : V3) : (a + b).x = a.x + b.x := rfl

@[simp] lemma V3.add_y (a b : V3) : (a + b).y = a.y + b.y := rfl

@[simp] lemma V3.add_z (a b : V3) : (a + b).z = a.z + b.z := rfl

@[simp] lemma V3.sub_x (a b : V3) : (a - b).x = a.x - b.x := rfl

@[simp] lemma V3.sub_y (a b : V3) : (a - b).y = a.y - b.y := rfl

@[simp] lemma V3.sub_z (a b : V3) : (a - b).z = a.z - b.z := rfl

@[simp] lemma V3.smul_x (c : ℝ) (a : V3) : (c • a).x = c * a.x := rfl

@[simp] lemma V3.smul_y (c : ℝ) (a : V3) : (c • a).y = c * a.y := rfl

@[simp] lemma V3.smul_z (c : ℝ) (a : V3) : (c • a).z = c * a.z := rfl

/-! ### Combinatorial lemmas -/

lemma zmod_one_ne_zero (m : ℕ) (hm : 3 ≤ m) : (1 : ZMod m) ≠ 0 := by
  haveI : NeZero m := ⟨by omega⟩
  haveI : Fact (1 < m) := ⟨by omega⟩
  intro h
  have h2 := congrArg ZMod.val h
  simp [ZMod.val_one] at h2

lemma zmod_neg_one_ne_zero (m : ℕ) (hm : 3 ≤ m) : (-1 : ZMod m) ≠ 0 := by
  intro h
  exact zmod_one_ne_zero m hm (by rwa [neg_eq_zero] at h)

lemma zmod_one_ne_neg_one (m : ℕ) (hm : 3 ≤ m) : (1 : ZMod m) ≠ -1 := by
  haveI : NeZero m := ⟨by omega⟩
  intro h
  have h2 : ((2 : ℕ) : ZMod m) = 0 := by push_cast; linear_combination h
  have h3 := congrArg ZMod.val h2
  rw [ZMod.val_cast_of_lt (by omega)] at h3
  simp at h3

lemma signVal_injective (m : ℕ) (hm : 3 ≤ m) :
    Function.Injective (signVal m) := by
  have h1 := zmod_one_ne_zero m hm
  have h2 := zmod_neg_one_ne_zero m hm
  have h3 := zmod_one_ne_neg_one m hm
  intro a b h
  fin_cases a <;> fin_cases b <;> simp_all [signVal, eq_comm]

lemma deltaCode_injective :
    ∀ b k b' k', deltaCode b k = deltaCode b' k' → b = b' ∧ k = k' := by
  decide

lemma edgeDelta_injective (R n : ℕ) (hR : 3 ≤ R) (hn : 3 ≤ n)
    {b b' : Bool} {k k' : Fin 3}
    (h : edgeDelta R n b k = edgeDelta R n b' k') : b = b' ∧ k = k' := by
  have h1 : signVal R (deltaCode b k).1 = signVal R (deltaCode b' k').1 :=
    congrArg Prod.fst h
  have h2 : signVal n (deltaCode b k).2 = signVal n (deltaCode b' k').2 :=
    congrArg Prod.snd h
  have hc : deltaCode b k = deltaCode b' k' :=
    Prod.ext (signVal_injective R hR h1) (signVal_injective n hn h2)
  exact deltaCode_injective b k b' k' hc

lemma slotEdge_eq (R n : ℕ) (i : ZMod R) (j : ZMod n) (b : Bool) (k : Fin 3) :
    slotEdge R n ((i, j), b, k) =
      ((i, j) + srcOff R n b k,
       (i, j) + srcOff R n b k + edgeDelta R n b k) := by
  cases b <;> fin_cases k <;>
    simp [slotEdge, torusTri, srcOff, edgeDelta, deltaCode, signVal,
      Prod.ext_iff]

lemma slotEdge_injective (R n : ℕ) (hR : 3 ≤ R) (hn : 3 ≤ n) :
    Function.Injective (slotEdge R n) := by
  rintro ⟨⟨i, j⟩, b, k⟩ ⟨⟨i', j'⟩, b', k'⟩ h
  rw [slotEdge_eq, slotEdge_eq, Prod.mk.injEq] at h
  obtain ⟨hsrc, htgt⟩ := h
  rw [hsrc] at htgt
  have hd := add_left_cancel htgt
  obtain ⟨hb, hk⟩ := edgeDelta_injective R n hR hn hd
  subst hb; subst hk
  have hij := add_right_cancel hsrc
  simp_all

lemma edgeCount_slotEdge (R n : ℕ) [NeZero R] [NeZero n] (hR : 3 ≤ R)
    (hn : 3 ≤ n) (x : TriSlot R n) :
    edgeCount R n (slotEdge R n x) = 1 := by
  have hset : (Finset.univ.filter fun y : TriSlot R n =>
      slotEdge R n y = slotEdge R n x) = {x} := by
    ext y
    simp [(slotEdge_injective R n hR hn).eq_iff]
  rw [edgeCount, hset, Finset.card_singleton]

lemma slotEdge_revSlot (R n : ℕ) (x : TriSlot R n) :
    slotEdge R n (revSlot R n x) = (slotEdge R n x).swap := by
  obtain ⟨⟨i, j⟩, b, k⟩ := x
  cases b <;> fin_cases k <;>
    simp [revSlot, slotEdge, torusTri, Prod.ext_iff, Prod.swap]

lemma edgeCount_swap (R n : ℕ) [NeZero R] [NeZero n] (hR : 3 ≤ R)
    (hn : 3 ≤ n) (x : TriSlot R n) :
    edgeCount R n (slotEdge R n x).swap = 1 := by
  rw [← slotEdge_revSlot]
  exact edgeCount_slotEdge R n hR hn (revSlot R n x)

/-! ### Elementary facts about the blend and sampling functions -/

lemma smoothstep_nonneg {t : ℝ} (h0 : 0 ≤ t) (h1 : t ≤ 1) : 0 ≤ smoothstep t := by
  have h2 : 0 ≤ 3 - 2 * t := by nlinarith
  exact mul_nonneg (sq_nonneg t) h2

lemma smoothstep_le_one {t : ℝ} (h0 : 0 ≤ t) (h1 : t ≤ 1) : smoothstep t ≤ 1 := by
  have h2 : 0 ≤ (1 - t) ^ 2 * (1 + 2 * t) := by positivity
  rw [smoothstep]
  nlinarith [h2]

lemma tensionBlend_nonneg {c t : ℝ} (hc0 : 0 ≤ c) (hc1 : c ≤ 1)
    (h0 : 0 ≤ t) (h1 : t ≤ 1) : 0 ≤ tensionBlend c t := by
  have hs := smoothstep_nonneg h0 h1
  have : 0 ≤ 1 - c := by linarith
  exact add_nonneg (mul_nonneg this h0) (mul_nonneg hc0 hs)

lemma tensionBlend_le_one {c t : ℝ} (hc0 : 0 ≤ c) (hc1 : c ≤ 1)
    (h0 : 0 ≤ t) (h1 : t ≤ 1) : tensionBlend c t ≤ 1 := by
  have hs := smoothstep_le_one h0 h1
  have h2 : 0 ≤ 1 - c := by linarith
  calc tensionBlend c t ≤ (1 - c) * 1 + c * 1 := by
        refine add_le_add (mul_le_mul_of_nonneg_left h1 h2)
          (mul_le_mul_of_nonneg_left hs hc0)
    _ = 1 := by ring

@[simp] lemma tensionBlend_zero (c : ℝ) : tensionBlend c 0 = 0 := by
  simp [tensionBlend, smoothstep]

@[simp] lemma tensionBlend_one (c : ℝ) : tensionBlend c 1 = 1 := by
  rw [tensionBlend, smoothstep]
  ring

lemma mix_min_le {a b s : ℝ} (h0 : 0 ≤ s) (h1 : s ≤ 1) :
    min a b ≤ (1 - s) * a + s * b := by
  rcases le_total a b with h | h
  · rw [min_eq_left h]; nlinarith
  · rw [min_eq_right h]; nlinarith

lemma mix_pos {a b s : ℝ} (ha : 0 < a) (hb : 0 < b) (h0 : 0 ≤ s)
    (h1 : s ≤ 1) : 0 < (1 - s) * a + s * b :=
  lt_of_lt_of_le (lt_min ha hb) (mix_min_le h0 h1)

lemma stationT_zero (p : Params) : stationT p 0 = 0 := by simp [stationT]

lemma stationT_mid (p : Params) {i : ℕ} (h1 : 1 ≤ i) (h2 : i ≤ p.fn) :
    stationT p i = ((i : ℝ) - 1) / ((p.fn : ℝ) - 1) := by
  have : i ≠ 0 := by omega
  simp [stationT, this, h2]

lemma stationT_last (p : Params) {i : ℕ} (h : p.fn < i) : stationT p i = 1 := by
  have h0 : i ≠ 0 := by omega
  have h2 : ¬ i ≤ p.fn := by omega
  simp [stationT, h0, h2]

lemma stationT_one (p : Params) (hfn : 1 ≤ p.fn) : stationT p 1 = 0 := by
  rw [stationT_mid p le_rfl hfn]
  simp

lemma stationT_fn (p : Params) (hfn : 2 ≤ p.fn) : stationT p p.fn = 1 := by
  rw [stationT_mid p (by omega) le_rfl]
  have : ((p.fn : ℝ) - 1) ≠ 0 := by
    have : (2 : ℝ) ≤ (p.fn : ℝ) := by exact_mod_cast hfn
    linarith
  field_simp

lemma stationT_nonneg (p : Params) (hfn : 2 ≤ p.fn) (i : ℕ) :
    0 ≤ stationT p i := by
  rcases Nat.eq_zero_or_pos i with h | h
  · subst h; simp [stationT_zero]
  · rcases le_or_lt i p.fn with h2 | h2
    · rw [stationT_mid p h h2]
      have hn : (0 : ℝ) < (p.fn : ℝ) - 1 := by
        have : (2 : ℝ) ≤ (p.fn : ℝ) := by exact_mod_cast hfn
        linarith
      have hi : (1 : ℝ) ≤ (i : ℝ) := by exact_mod_cast h
      exact div_nonneg (by linarith) (le_of_lt hn)
    · rw [stationT_last p h2]; norm_num

lemma stationT_le_one (p : Params) (hfn : 2 ≤ p.fn) (i : ℕ) :
    stationT p i ≤ 1 := by
  rcases Nat.eq_zero_or_pos i with h | h
  · subst h; simp [stationT_zero]
  · rcases le_or_lt i p.fn with h2 | h2
    · rw [stationT_mid p h h2]
      have hn : (0 : ℝ) < (p.fn : ℝ) - 1 := by
        have : (2 : ℝ) ≤ (p.fn : ℝ) := by exact_mod_cast hfn
        linarith
      rw [div_le_one hn]
      have : (i : ℝ) ≤ (p.fn : ℝ) := by exact_mod_cast h2
      linarith
    · rw [stationT_last p h2]

lemma stationMix_nonneg (p : Params) (hv : ValidParams p) (i : ℕ) :
    0 ≤ stationMix p i :=
  tensionBlend_nonneg hv.tension_nonneg hv.tension_le_one
    (stationT_nonneg p (by have := hv.fnBound; omega) i)
    (stationT_le_one p (by have := hv.fnBound; omega) i)

lemma stationMix_le_one (p : Params) (hv : ValidParams p) (i : ℕ) :
    stationMix p i ≤ 1 :=
  tensionBlend_le_one hv.tension_nonneg hv.tension_le_one
    (stationT_nonneg p (by have := hv.fnBound; omega) i)
    (stationT_le_one p (by have := hv.fnBound; omega) i)

lemma shapeRadius_pos (sh : Shape) {w d : ℝ} (hw : 0 < w) (hd : 0 < d)
    (a : ℝ) : 0 < shapeRadius sh w d a := by
  cases sh with
  | circle => simpa [shapeRadius] using half_pos hw
  | rectangle =>
      rw [shapeRadius]
      refine one_div_pos.mpr ?_
      rcases eq_or_ne (Real.cos a) 0 with hc | hc
      · have hs : Real.sin a ≠ 0 := by
          intro hs
          have := Real.sin_sq_add_cos_sq a
          rw [hs, hc] at this
          norm_num at this
        have hs2 : 0 < |Real.sin a| := abs_pos.mpr hs
        have : 0 < 2 * |Real.sin a| / d := by positivity
        exact lt_max_of_lt_right this
      · have hc2 : 0 < |Real.cos a| := abs_pos.mpr hc
        have : 0 < 2 * |Real.cos a| / w := by positivity
        exact lt_max_of_lt_left this

lemma stationRadius_pos (p : Params) (hv : ValidParams p) (i j : ℕ) :
    0 < stationRadius p i j :=
  mix_pos (hv.bottom_radius_pos (theta p.fn j)) (hv.top_radius_pos (theta p.fn j))
    (stationMix_nonneg p hv i) (stationMix_le_one p hv i)

lemma sin_two_pi_div_pos {n : ℕ} (hn : 3 ≤ n) :
    0 < Real.sin (2 * Real.pi / n) := by
  have hpi := Real.pi_pos
  have hn0 : (0 : ℝ) < (n : ℝ) := by
    have : (3 : ℝ) ≤ (n : ℝ) := by exact_mod_cast hn
    linarith
  refine Real.sin_pos_of_pos_of_lt_pi (by positivity) ?_
  rw [div_lt_iff hn0]
  have h3 : (3 : ℝ) ≤ (n : ℝ) := by exact_mod_cast hn
  nlinarith

lemma theta_succ (n j : ℕ) (hn : n ≠ 0) :
    theta n (j + 1) - theta n j = 2 * Real.pi / n := by
  have hn0 : (n : ℝ) ≠ 0 := by exact_mod_cast hn
  rw [theta, theta]
  push_cast
  field_simp
  ring

lemma cross2_radial (r1 r2 a1 a2 : ℝ) :
    cross2 (radialPoint r1 a1) (radialPoint r2 a2) =
      r1 * r2 * Real.sin (a2 - a1) := by
  simp [cross2, radialPoint, Real.sin_sub]
  ring

lemma cross2_stationPoly (p : Params) (hn : p.fn ≠ 0) (i j : ℕ) :
    cross2 (stationPoly p i j) (stationPoly p i (j + 1)) =
      stationRadius p i j * stationRadius p i (j + 1) *
        Real.sin (2 * Real.pi / p.fn) := by
  rw [stationPoly, stationPoly, cross2_radial, ← theta_succ p.fn j hn]

/-! ### Cross-section areas and volume positivity -/

lemma ringArea_build (p : Params) (hfn : 3 ≤ p.fn) (i : ℕ) :
    ringArea (build p hfn) i =
      (∑ j ∈ Finset.range p.fn,
          stationRadius p i j * stationRadius p i (j + 1)) *
        Real.sin (2 * Real.pi / p.fn) / 2 := by
  have hn : p.fn ≠ 0 := by omega
  rw [ringArea]
  have hp : (build p hfn).poly = stationPoly p := rfl
  have hnn : (build p hfn).n = p.fn := rfl
  rw [hp, hnn, Finset.sum_congr rfl (fun j _ => cross2_stationPoly p hn i j),
    ← Finset.sum_mul]

lemma ringArea_build_pos (p : Params) (hv : ValidParams p) (i : ℕ) :
    0 < ringArea (build p hv.fnBound) i := by
  rw [ringArea_build p hv.fnBound i]
  have hsin := sin_two_pi_div_pos hv.fnBound
  have hsum : 0 < ∑ j ∈ Finset.range p.fn,
      stationRadius p i j * stationRadius p i (j + 1) := by
    refine Finset.sum_pos (fun j _ =>
      mul_pos (stationRadius_pos p hv i j) (stationRadius_pos p hv i (j + 1))) ?_
    refine Finset.nonempty_range_iff.mpr ?_
    have := hv.fnBound
    omega
  exact div_pos (mul_pos hsum hsin) two_pos

lemma cross2_smul (l : ℝ) (a b : ℝ × ℝ) :
    cross2 (l • a) (l • b) = l ^ 2 * cross2 a b := by
  simp [cross2, Prod.smul_fst, Prod.smul_snd]
  ring

lemma innerRingArea_eq (M : MeshData) (i : ℕ) :
    innerRingArea M i = (M.lam i) ^ 2 * ringArea M i := by
  rw [innerRingArea, ringArea]
  have h : ∀ j, cross2 (innerPoly M i j) (innerPoly M i (j + 1)) =
      (M.lam i) ^ 2 * cross2 (M.poly i j) (M.poly i (j + 1)) := fun j => by
    rw [innerPoly, innerPoly, cross2_smul]
  rw [Finset.sum_congr rfl (fun j _ => h j), ← Finset.mul_sum]
  ring

lemma minNominal_le_stationMin (p : Params) (hv : ValidParams p) (i : ℕ) :
    minNominal p ≤ stationMin p i :=
  mix_min_le (stationMix_nonneg p hv i) (stationMix_le_one p hv i)

lemma stationMin_pos (p : Params) (hv : ValidParams p) (i : ℕ) :
    0 < stationMin p i := by
  have h1 := minNominal_le_stationMin p hv i
  have h2 := hv.wall_fits
  have h3 := hv.wall_pos
  linarith

lemma stationLam_pos (p : Params) (hv : ValidParams p) (i : ℕ) :
    0 < stationLam p i := by
  rw [stationLam]
  refine div_pos ?_ (stationMin_pos p hv i)
  have h1 := minNominal_le_stationMin p hv i
  have h2 := hv.wall_fits
  linarith

lemma stationLam_lt_one (p : Params) (hv : ValidParams p) (i : ℕ) :
    stationLam p i < 1 := by
  rw [stationLam]
  rw [div_lt_one (stationMin_pos p hv i)]
  have := hv.wall_pos
  linarith

lemma center_z_zero (p : Params) :
    (stationCenter p 0).z = -p.bottom_extension := by
  simp [stationCenter]

lemma center_z_mid (p : Params) {i : ℕ} (h1 : 1 ≤ i) (h2 : i ≤ p.fn) :
    (stationCenter p i).z = stationT p i * p.transition_height := by
  have h0 : i ≠ 0 := by omega
  simp [stationCenter, h0, h2]

lemma center_z_top (p : Params) {i : ℕ} (h : p.fn < i) :
    (stationCenter p i).z =
      p.transition_height + p.top_extension * (topAxis p).z := by
  have h0 : i ≠ 0 := by omega
  have h2 : ¬ i ≤ p.fn := by omega
  simp [stationCenter, h0, h2]

lemma topAxis_z (p : Params) :
    (topAxis p).z = Real.cos (deg2rad p.angle_x) * Real.cos (deg2rad p.angle_y) := by
  rw [topAxis, stationRot, stationT_last p (by omega : p.fn < p.fn + 1)]
  simp [rotX, rotY]

lemma cos_deg2rad_pos {a : ℝ} (h : |a| < 90) : 0 < Real.cos (deg2rad a) := by
  have hpi := Real.pi_pos
  obtain ⟨h1, h2⟩ := abs_lt.mp h
  refine Real.cos_pos_of_mem_Ioo ⟨?_, ?_⟩
  · have hp1 := mul_pos (show (0 : ℝ) < a + 90 by linarith) hpi
    rw [deg2rad]
    nlinarith
  · have hp2 := mul_pos (show (0 : ℝ) < 90 - a by linarith) hpi
    rw [deg2rad]
    nlinarith

lemma center_z_step (p : Params) (hfn : 3 ≤ p.fn) {i : ℕ} (h1 : 1 ≤ i)
    (h2 : i + 1 ≤ p.fn) :
    (stationCenter p (i + 1)).z - (stationCenter p i).z =
      p.transition_height / ((p.fn : ℝ) - 1) := by
  rw [center_z_mid p (by omega) h2, center_z_mid p h1 (by omega),
    stationT_mid p (by omega) h2, stationT_mid p h1 (by omega)]
  have hne : ((p.fn : ℝ) - 1) ≠ 0 := by
    have : (3 : ℝ) ≤ (p.fn : ℝ) := by exact_mod_cast hfn
    linarith
  push_cast
  field_simp
  ring

lemma center_z_diff_nonneg (p : Params) (hv : ValidParams p) {i : ℕ}
    (hi : i ≤ p.fn) :
    0 ≤ (stationCenter p (i + 1)).z - (stationCenter p i).z := by
  have hfn := hv.fnBound
  rcases Nat.eq_zero_or_pos i with h0 | h0
  · subst h0
    rw [center_z_zero, center_z_mid p le_rfl (by omega),
      stationT_one p (by omega)]
    have := hv.bottom_ext_nonneg
    simp
    linarith
  · rcases lt_or_eq_of_le hi with h2 | h2
    · rw [center_z_step p hfn h0 (by omega)]
      have hd : (0 : ℝ) < (p.fn : ℝ) - 1 := by
        have : (3 : ℝ) ≤ (p.fn : ℝ) := by exact_mod_cast hfn
        linarith
      exact le_of_lt (div_pos hv.height_pos hd)
    · subst h2
      rw [center_z_top p (by omega), center_z_mid p (by omega) le_rfl,
        stationT_fn p (by omega), topAxis_z]
      have hcx := cos_deg2rad_pos hv.angle_x_bound
      have hcy := cos_deg2rad_pos hv.angle_y_bound
      have hte := hv.top_ext_nonneg
      have := mul_nonneg hte (le_of_lt (mul_pos hcx hcy))
      linarith

lemma annularArea_build_pos (p : Params) (hv : ValidParams p) (i : ℕ) :
    0 < ringArea (build p hv.fnBound) i - innerRingArea (build p hv.fnBound) i := by
  rw [innerRingArea_eq]
  have hA := ringArea_build_pos p hv i
  have hl1 : 0 < (build p hv.fnBound).lam i := stationLam_pos p hv i
  have hl2 : (build p hv.fnBound).lam i < 1 := stationLam_lt_one p hv i
  have hsq : (build p hv.fnBound).lam i ^ 2 < 1 := by nlinarith
  have := mul_lt_mul_of_pos_right hsq hA
  linarith

lemma meshVolume_build_pos (p : Params) (hv : ValidParams p) :
    0 < meshVolume (build p hv.fnBound) := by
  rw [meshVolume]
  have hSS : (build p hv.fnBound).S = p.fn + 2 := rfl
  have hc : (build p hv.fnBound).center = stationCenter p := rfl
  refine Finset.sum_pos' (fun i hi => ?_) ?_
  · rw [hSS] at hi
    simp only [Finset.mem_range] at hi
    refine mul_nonneg (le_of_lt (annularArea_build_pos p hv i)) ?_
    rw [hc]
    exact center_z_diff_nonneg p hv (by omega)
  · refine ⟨1, ?_, ?_⟩
    · rw [hSS]
      simp only [Finset.mem_range]
      have := hv.fnBound
      omega
    · refine mul_pos (annularArea_build_pos p hv 1) ?_
      rw [hc, center_z_step p hv.fnBound le_rfl (by have := hv.fnBound; omega)]
      refine div_pos hv.height_pos ?_
      have : (3 : ℝ) ≤ (p.fn : ℝ) := by exact_mod_cast hv.fnBound
      linarith

/-! ### Placement under zero exit angles -/

lemma rotX_zero (v : V3) : rotX 0 v = v := by simp [rotX]

lemma rotY_zero (v : V3) : rotY 0 v = v := by simp [rotY]

lemma deg2rad_zero : deg2rad 0 = 0 := by simp [deg2rad]

lemma stationRot_id (p : Params) (hax : p.angle_x = 0) (hay : p.angle_y = 0)
    (i : ℕ) (v : V3) : stationRot p i v = v := by
  rw [stationRot, hax, hay, deg2rad_zero, mul_zero, rotX_zero, rotY_zero]

lemma topAxis_vertical (p : Params) (hax : p.angle_x = 0)
    (hay : p.angle_y = 0) : topAxis p = ⟨0, 0, 1⟩ := by
  rw [topAxis, stationRot_id p hax hay]

lemma outerVertex_z_id (p : Params) (hfn : 3 ≤ p.fn) (hax : p.angle_x = 0)
    (hay : p.angle_y = 0) (i j : ℕ) :
    (outerVertex (build p hfn) i j).z = (stationCenter p i).z := by
  have hr : (build p hfn).rot = stationRot p := rfl
  have hc : (build p hfn).center = stationCenter p := rfl
  rw [outerVertex, hr, hc, stationRot_id p hax hay]
  simp [embed2]

lemma innerVertex_z_id (p : Params) (hfn : 3 ≤ p.fn) (hax : p.angle_x = 0)
    (hay : p.angle_y = 0) (i j : ℕ) :
    (innerVertex (build p hfn) i j).z = (stationCenter p i).z := by
  have hr : (build p hfn).rot = stationRot p := rfl
  have hc : (build p hfn).center = stationCenter p := rfl
  rw [innerVertex, hr, hc, stationRot_id p hax hay]
  simp [embed2]

lemma center_z_bounds (p : Params) (hv : ValidParams p) (hax : p.angle_x = 0)
    (hay : p.angle_y = 0) (i : ℕ) :
    -p.bottom_extension ≤ (stationCenter p i).z ∧
      (stationCenter p i).z ≤ p.transition_height + p.top_extension := by
  have hfn := hv.fnBound
  have hb := hv.bottom_ext_nonneg
  have ht := hv.top_ext_nonneg
  have hh := hv.height_pos
  rcases Nat.eq_zero_or_pos i with h0 | h0
  · subst h0
    rw [center_z_zero]
    constructor <;> linarith
  · rcases le_or_lt i p.fn with h2 | h2
    · rw [center_z_mid p h0 h2]
      have ht0 := stationT_nonneg p (by omega) i
      have ht1 := stationT_le_one p (by omega) i
      constructor
      · nlinarith
      · nlinarith
    · rw [center_z_top p h2, topAxis_vertical p hax hay]
      constructor
      · norm_num
        linarith
      · norm_num

lemma center_z_topext (p : Params) (hax : p.angle_x = 0)
    (hay : p.angle_y = 0) :
    (stationCenter p (p.fn + 1)).z =
      p.transition_height + p.top_extension := by
  rw [center_z_top p (by omega), topAxis_vertical p hax hay]
  norm_num

lemma meshMinZ_build (p : Params) (hv : ValidParams p) (hax : p.angle_x = 0)
    (hay : p.angle_y = 0) :
    meshMinZ (build p hv.fnBound) = -p.bottom_extension := by
  have hzo := outerVertex_z_id p hv.fnBound hax hay
  have hzi := innerVertex_z_id p hv.fnBound hax hay
  apply le_antisymm
  · have hmem : ((0, 0) : ℕ × ℕ) ∈ stationIdx (build p hv.fnBound) := by
      have h1 : (build p hv.fnBound).S = p.fn + 2 := rfl
      have h2 : (build p hv.fnBound).n = p.fn := rfl
      have := hv.fnBound
      simp [stationIdx, h1, h2]
      omega
    refine le_trans (Finset.inf'_le _ hmem) ?_
    rw [hzo, hzi, center_z_zero, min_self]
  · rw [meshMinZ]
    refine Finset.le_inf' _ _ (fun q hq => ?_)
    rw [hzo, hzi, min_self]
    exact (center_z_bounds p hv hax hay q.1).1

lemma meshMaxZ_build (p : Params) (hv : ValidParams p) (hax : p.angle_x = 0)
    (hay : p.angle_y = 0) :
    meshMaxZ (build p hv.fnBound) =
      p.transition_height + p.top_extension := by
  have hzo := outerVertex_z_id p hv.fnBound hax hay
  have hzi := innerVertex_z_id p hv.fnBound hax hay
  apply le_antisymm
  · rw [meshMaxZ]
    refine Finset.sup'_le _ _ (fun q hq => ?_)
    rw [hzo, hzi, max_self]
    exact (center_z_bounds p hv hax hay q.1).2
  · have hmem : ((p.fn + 1, 0) : ℕ × ℕ) ∈ stationIdx (build p hv.fnBound) := by
      have h1 : (build p hv.fnBound).S = p.fn + 2 := rfl
      have h2 : (build p hv.fnBound).n = p.fn := rfl
      have := hv.fnBound
      simp [stationIdx, h1, h2]
      omega
    refine le_trans ?_ (Finset.le_sup' _ hmem)
    rw [hzo, hzi, center_z_topext p hax hay, max_self]

/-! ### Even-sampling symmetry and top-station placement -/

lemma theta_zero (n : ℕ) : theta n 0 = 0 := by simp [theta]

lemma theta_add_half (m j : ℕ) (hm : m ≠ 0) :
    theta (2 * m) (j + m) = theta (2 * m) j + Real.pi := by
  have hm0 : (m : ℝ) ≠ 0 := by exact_mod_cast hm
  rw [theta, theta]
  push_cast
  field_simp
  ring

lemma theta_half (m : ℕ) (hm : m ≠ 0) : theta (2 * m) m = Real.pi := by
  have h := theta_add_half m 0 hm
  rw [zero_add, theta_zero, zero_add] at h
  exact h

lemma shapeRadius_pi (sh : Shape) (w d a : ℝ) :
    shapeRadius sh w d (a + Real.pi) = shapeRadius sh w d a := by
  cases sh with
  | circle => rfl
  | rectangle => simp [shapeRadius, Real.cos_add_pi, Real.sin_add_pi, abs_neg]

lemma bottomRadius_pi (p : Params) (a : ℝ) :
    bottomRadius p (a + Real.pi) = bottomRadius p a := by
  rw [bottomRadius, bottomRadius, shapeRadius_pi]

lemma topRadius_pi (p : Params) (a : ℝ) :
    topRadius p (a + Real.pi) = topRadius p a := by
  rw [topRadius, topRadius, shapeRadius_pi]

lemma stationRadius_antipode (p : Params) (i m j : ℕ) (hm : m ≠ 0)
    (hfn : p.fn = 2 * m) :
    stationRadius p i (j + m) = stationRadius p i j := by
  rw [stationRadius, stationRadius, hfn, theta_add_half m j hm,
    bottomRadius_pi, topRadius_pi]

lemma stationPoly_antipode (p : Params) (i m j : ℕ) (hm : m ≠ 0)
    (hfn : p.fn = 2 * m) :
    stationPoly p i (j + m) = -stationPoly p i j := by
  rw [stationPoly, stationPoly, stationRadius_antipode p i m j hm hfn, hfn,
    theta_add_half m j hm]
  simp [radialPoint, Real.cos_add_pi, Real.sin_add_pi, Prod.ext_iff]

lemma stationPoly_sum (p : Params) (i m : ℕ) (hm : m ≠ 0)
    (hfn : p.fn = 2 * m) :
    ∑ j ∈ Finset.range p.fn, stationPoly p i j = 0 := by
  rw [hfn, two_mul, Finset.sum_range_add]
  have h : ∀ x, stationPoly p i (m + x) = -stationPoly p i x := fun x => by
    rw [add_comm m x]
    exact stationPoly_antipode p i m x hm hfn
  rw [Finset.sum_congr rfl (fun x _ => h x), ← Finset.sum_add_distrib]
  simp

lemma center_top_eq (p : Params) {i : ℕ} (h : p.fn < i) :
    stationCenter p i =
      ⟨p.offset_x, p.offset_y, p.transition_height⟩ +
        p.top_extension • topAxis p := by
  have h0 : i ≠ 0 := by omega
  have h2 : ¬ i ≤ p.fn := by omega
  simp [stationCenter, h0, h2]

lemma center_x_topext (p : Params) (hax : p.angle_x = 0)
    (hay : p.angle_y = 0) : (stationCenter p (p.fn + 1)).x = p.offset_x := by
  rw [center_top_eq p (by omega), topAxis_vertical p hax hay]
  simp

lemma center_y_topext (p : Params) (hax : p.angle_x = 0)
    (hay : p.angle_y = 0) : (stationCenter p (p.fn + 1)).y = p.offset_y := by
  rw [center_top_eq p (by omega), topAxis_vertical p hax hay]
  simp

lemma outerVertex_x_id (p : Params) (hfn : 3 ≤ p.fn) (hax : p.angle_x = 0)
    (hay : p.angle_y = 0) (i j : ℕ) :
    (outerVertex (build p hfn) i j).x =
      (stationCenter p i).x + (stationPoly p i j).1 := by
  have hr : (build p hfn).rot = stationRot p := rfl
  have hc : (build p hfn).center = stationCenter p := rfl
  have hp : (build p hfn).poly = stationPoly p := rfl
  rw [outerVertex, hr, hc, hp, stationRot_id p hax hay]
  simp [embed2]

lemma outerVertex_y_id (p : Params) (hfn : 3 ≤ p.fn) (hax : p.angle_x = 0)
    (hay : p.angle_y = 0) (i j : ℕ) :
    (outerVertex (build p hfn) i j).y =
      (stationCenter p i).y + (stationPoly p i j).2 := by
  have hr : (build p hfn).rot = stationRot p := rfl
  have hc : (build p hfn).center = stationCenter p := rfl
  have hp : (build p hfn).poly = stationPoly p := rfl
  rw [outerVertex, hr, hc, hp, stationRot_id p hax hay]
  simp [embed2]

lemma innerVertex_x_id (p : Params) (hfn : 3 ≤ p.fn) (hax : p.angle_x = 0)
    (hay : p.angle_y = 0) (i j : ℕ) :
    (innerVertex (build p hfn) i j).x =
      (stationCenter p i).x + stationLam p i * (stationPoly p i j).1 := by
  have hr : (build p hfn).rot = stationRot p := rfl
  have hc : (build p hfn).center = stationCenter p := rfl
  have hl : (build p hfn).lam = stationLam p := rfl
  rw [innerVertex, hr, hc, innerPoly, hl, stationRot_id p hax hay]
  have hp : (build p hfn).poly = stationPoly p := rfl
  rw [hp]
  simp [embed2, Prod.smul_fst]

lemma innerVertex_y_id (p : Params) (hfn : 3 ≤ p.fn) (hax : p.angle_x = 0)
    (hay : p.angle_y = 0) (i j : ℕ) :
    (innerVertex (build p hfn) i j).y =
      (stationCenter p i).y + stationLam p i * (stationPoly p i j).2 := by
  have hr : (build p hfn).rot = stationRot p := rfl
  have hc : (build p hfn).center = stationCenter p := rfl
  have hl : (build p hfn).lam = stationLam p := rfl
  rw [innerVertex, hr, hc, innerPoly, hl, stationRot_id p hax hay]
  have hp : (build p hfn).poly = stationPoly p := rfl
  rw [hp]
  simp [embed2, Prod.smul_snd]

lemma sectionCentroid_build (p : Params) (hv : ValidParams p)
    (hax : p.angle_x = 0) (hay : p.angle_y = 0) (i m : ℕ) (hm : m ≠ 0)
    (hfn2 : p.fn = 2 * m) :
    sectionCentroid (build p hv.fnBound) i =
      ((stationCenter p i).x, (stationCenter p i).y) := by
  have hn : (build p hv.fnBound).n = p.fn := rfl
  have hsum := stationPoly_sum p i m hm hfn2
  have hsx : ∑ j ∈ Finset.range p.fn, (stationPoly p i j).1 = 0 := by
    have h := congrArg Prod.fst hsum
    rw [Prod.fst_sum] at h
    simpa using h
  have hsy : ∑ j ∈ Finset.range p.fn, (stationPoly p i j).2 = 0 := by
    have h := congrArg Prod.snd hsum
    rw [Prod.snd_sum] at h
    simpa using h
  have hfn0 : (0 : ℝ) < (p.fn : ℝ) := by
    have := hv.fnBound
    have h3 : (3 : ℝ) ≤ (p.fn : ℝ) := by exact_mod_cast this
    linarith
  have hx : (∑ j ∈ Finset.range p.fn,
      ((outerVertex (build p hv.fnBound) i j).x +
        (innerVertex (build p hv.fnBound) i j).x)) / (2 * (p.fn : ℝ)) =
      (stationCenter p i).x := by
    have hterm : ∀ j ∈ Finset.range p.fn,
        (outerVertex (build p hv.fnBound) i j).x +
          (innerVertex (build p hv.fnBound) i j).x =
        2 * (stationCenter p i).x +
          (1 + stationLam p i) * (stationPoly p i j).1 := fun j _ => by
      rw [outerVertex_x_id p hv.fnBound hax hay,
        innerVertex_x_id p hv.fnBound hax hay]
      ring
    rw [Finset.sum_congr rfl hterm, Finset.sum_add_distrib,
      Finset.sum_const, Finset.card_range, ← Finset.mul_sum, hsx, mul_zero,
      add_zero, nsmul_eq_mul]
    field_simp
    ring
  have hy : (∑ j ∈ Finset.range p.fn,
      ((outerVertex (build p hv.fnBound) i j).y +
        (innerVertex (build p hv.fnBound) i j).y)) / (2 * (p.fn : ℝ)) =
      (stationCenter p i).y := by
    have hterm : ∀ j ∈ Finset.range p.fn,
        (outerVertex (build p hv.fnBound) i j).y +
          (innerVertex (build p hv.fnBound) i j).y =
        2 * (stationCenter p i).y +
          (1 + stationLam p i) * (stationPoly p i j).2 := fun j _ => by
      rw [outerVertex_y_id p hv.fnBound hax hay,
        innerVertex_y_id p hv.fnBound hax hay]
      ring
    rw [Finset.sum_congr rfl hterm, Finset.sum_add_distrib,
      Finset.sum_const, Finset.card_range, ← Finset.mul_sum, hsy, mul_zero,
      add_zero, nsmul_eq_mul]
    field_simp
    ring
  rw [sectionCentroid, hn]
  exact Prod.ext hx hy

/-! ### Opening widths under the standard fit -/

lemma stationMix_zero (p : Params) : stationMix p 0 = 0 := by
  rw [stationMix, stationT_zero]
  simp [sectionBlend]

lemma stationMix_last (p : Params) {i : ℕ} (h : p.fn < i) :
    stationMix p i = 1 := by
  rw [stationMix, stationT_last p h]
  simp [sectionBlend]

lemma stationRadius_bottom (p : Params) (j : ℕ) :
    stationRadius p 0 j = bottomRadius p (theta p.fn j) := by
  rw [stationRadius, stationMix_zero]
  ring

lemma stationRadius_top (p : Params) {i : ℕ} (h : p.fn < i) (j : ℕ) :
    stationRadius p i j = topRadius p (theta p.fn j) := by
  rw [stationRadius, stationMix_last p h]
  ring

lemma bottomRadius_standard (p : Params)
    (hfit : p.bottom_fit = FitMode.standard) (a : ℝ) :
    bottomRadius p a =
      shapeRadius p.bottom_shape p.bottom_width p.bottom_depth a := by
  rw [bottomRadius, hfit]
  rfl

lemma topRadius_standard (p : Params) (hfit : p.top_fit = FitMode.standard)
    (a : ℝ) :
    topRadius p a = shapeRadius p.top_shape p.top_width p.top_depth a := by
  rw [topRadius, hfit]
  rfl

lemma shapeRadius_axis (sh : Shape) {w d : ℝ} (hw : 0 < w) (hd : 0 < d)
    {a : ℝ} (hc : |Real.cos a| = 1) (hs : Real.sin a = 0) :
    shapeRadius sh w d a = w / 2 := by
  cases sh with
  | circle => rfl
  | rectangle =>
      show 1 / max (2 * |Real.cos a| / w) (2 * |Real.sin a| / d) = w / 2
      rw [hc, hs, abs_zero]
      have e1 : 2 * (1 : ℝ) / w = 2 / w := by ring
      have e2 : 2 * (0 : ℝ) / d = 0 := by ring
      have h0 : (0 : ℝ) ≤ 2 / w := by positivity
      rw [e1, e2, max_eq_left h0, one_div_div]

lemma shapeRadius_cos_le (sh : Shape) {w d : ℝ} (hw : 0 < w) (hd : 0 < d)
    (a : ℝ) : |shapeRadius sh w d a * Real.cos a| ≤ w / 2 := by
  cases sh with
  | circle =>
      show |w / 2 * Real.cos a| ≤ w / 2
      rw [abs_mul, abs_of_pos (half_pos hw)]
      have h1 := Real.abs_cos_le_one a
      nlinarith [abs_nonneg (Real.cos a), half_pos hw]
  | rectangle =>
      have hrpos := shapeRadius_pos Shape.rectangle hw hd a
      rcases eq_or_ne (Real.cos a) 0 with hc | hc
      · rw [hc, mul_zero, abs_zero]
        positivity
      · have hcabs : 0 < |Real.cos a| := abs_pos.mpr hc
        have hden : 0 < 2 * |Real.cos a| / w := by positivity
        have hle : shapeRadius Shape.rectangle w d a ≤ w / (2 * |Real.cos a|) := by
          have h2 : shapeRadius Shape.rectangle w d a ≤
              1 / (2 * |Real.cos a| / w) := by
            show 1 / max (2 * |Real.cos a| / w) (2 * |Real.sin a| / d) ≤
              1 / (2 * |Real.cos a| / w)
            exact one_div_le_one_div_of_le hden (le_max_left _ _)
          rwa [one_div_div] at h2
        rw [abs_mul, abs_of_pos hrpos]
        have hstep : shapeRadius Shape.rectangle w d a * |Real.cos a| ≤
            w / (2 * |Real.cos a|) * |Real.cos a| :=
          mul_le_mul_of_nonneg_right hle (abs_nonneg _)
        have hne : |Real.cos a| ≠ 0 := ne_of_gt hcabs
        have heq : w / (2 * |Real.cos a|) * |Real.cos a| = w / 2 := by
          field_simp
          ring
        linarith

lemma sup'_eq_of_bound {I : Type} (s : Finset I) (H : s.Nonempty)
    (f : I → ℝ) (b : ℝ) (hub : ∀ i ∈ s, f i ≤ b) (hm : ∃ i ∈ s, b ≤ f i) :
    Finset.sup' s H f = b := by
  refine le_antisymm (Finset.sup'_le H f hub) ?_
  obtain ⟨i, hi, hbi⟩ := hm
  exact le_trans hbi (Finset.le_sup' f hi)

lemma inf'_eq_of_bound {I : Type} (s : Finset I) (H : s.Nonempty)
    (f : I → ℝ) (b : ℝ) (hlb : ∀ i ∈ s, b ≤ f i) (hm : ∃ i ∈ s, f i ≤ b) :
    Finset.inf' s H f = b := by
  refine le_antisymm ?_ (Finset.le_inf' H f hlb)
  obtain ⟨i, hi, hbi⟩ := hm
  exact le_trans (Finset.inf'_le f hi) hbi

lemma sliceWidth_station (p : Params) (hv : ValidParams p)
    (hax : p.angle_x = 0) (hay : p.angle_y = 0) {i m : ℕ} (hm : m ≠ 0)
    (hfn2 : p.fn = 2 * m) (hcx : (stationCenter p i).x = 0) {W : ℝ}
    (hW : 0 < W) (hbound : ∀ j : ℕ, |(stationPoly p i j).1| ≤ W / 2)
    (hat0 : (stationPoly p i 0).1 = W / 2)
    (hatm : (stationPoly p i m).1 = -(W / 2)) :
    sliceWidth (build p hv.fnBound) i = W := by
  have hn : (build p hv.fnBound).n = p.fn := rfl
  have hout : ∀ j, (outerVertex (build p hv.fnBound) i j).x =
      (stationPoly p i j).1 := fun j => by
    rw [outerVertex_x_id p hv.fnBound hax hay, hcx, zero_add]
  have hinn : ∀ j, (innerVertex (build p hv.fnBound) i j).x =
      stationLam p i * (stationPoly p i j).1 := fun j => by
    rw [innerVertex_x_id p hv.fnBound hax hay, hcx, zero_add]
  have hl0 := stationLam_pos p hv i
  have hl1 := stationLam_lt_one p hv i
  have habs : ∀ j ∈ sliceIdx (build p hv.fnBound),
      |sliceX (build p hv.fnBound) i j| ≤ W / 2 := by
    intro j hj
    rw [sliceX]
    by_cases h : j < (build p hv.fnBound).n
    · rw [if_pos h, hout]
      exact hbound j
    · rw [if_neg h, hinn, abs_mul, abs_of_pos hl0]
      have h1 := hbound (j - (build p hv.fnBound).n)
      nlinarith [abs_nonneg ((stationPoly p i (j - (build p hv.fnBound).n)).1)]
  have hfnpos : 0 < p.fn := by
    have := hv.fnBound
    omega
  have hmem0 : 0 ∈ sliceIdx (build p hv.fnBound) := by
    simp [sliceIdx, hn]
    omega
  have hmemm : m ∈ sliceIdx (build p hv.fnBound) := by
    simp [sliceIdx, hn, hfn2]
    omega
  have hv0 : sliceX (build p hv.fnBound) i 0 = W / 2 := by
    rw [sliceX, if_pos (by rw [hn]; omega : 0 < (build p hv.fnBound).n),
      hout, hat0]
  have hvm : sliceX (build p hv.fnBound) i m = -(W / 2) := by
    have hmlt : m < (build p hv.fnBound).n := by
      rw [hn, hfn2]
      omega
    rw [sliceX, if_pos hmlt, hout, hatm]
  have hsup : Finset.sup' (sliceIdx (build p hv.fnBound))
      (sliceIdx_nonempty (build p hv.fnBound))
      (sliceX (build p hv.fnBound) i) = W / 2 :=
    sup'_eq_of_bound _ _ _ _
      (fun j hj => le_of_abs_le (habs j hj)) ⟨0, hmem0, le_of_eq hv0.symm⟩
  have hinf : Finset.inf' (sliceIdx (build p hv.fnBound))
      (sliceIdx_nonempty (build p hv.fnBound))
      (sliceX (build p hv.fnBound) i) = -(W / 2) :=
    inf'_eq_of_bound _ _ _ _
      (fun j hj => neg_le_of_abs_le (habs j hj)) ⟨m, hmemm, le_of_eq hvm⟩
  rw [sliceWidth, hsup, hinf]
  ring

/-! ### Cap-face normals -/

lemma V3.add_sub_add (a u v : V3) : (a + u) - (a + v) = u - v := by
  ext <;> simp

lemma rotY_embed_sub (a : ℝ) (u v : ℝ × ℝ) :
    rotY a (embed2 u) - rotY a (embed2 v) = rotY a (embed2 (u - v)) := by
  ext <;> simp [rotY, embed2] <;> ring

lemma cross3_rotY_planar (a : ℝ) (e1 e2 : ℝ × ℝ) :
    cross3 (rotY a (embed2 e1)) (rotY a (embed2 e2)) =
      ⟨Real.sin a * cross2 e1 e2, 0, Real.cos a * cross2 e1 e2⟩ := by
  ext <;> simp [rotY, embed2, cross3, cross2] <;> ring

lemma norm3_tilted (a w : ℝ) :
    norm3 ⟨Real.sin a * w, 0, Real.cos a * w⟩ = |w| := by
  show Real.sqrt ((Real.sin a * w) ^ 2 + 0 ^ 2 + (Real.cos a * w) ^ 2) = |w|
  have h := Real.sin_sq_add_cos_sq a
  have h2 : (Real.sin a * w) ^ 2 + 0 ^ 2 + (Real.cos a * w) ^ 2 = w ^ 2 := by
    linear_combination w ^ 2 * h
  rw [h2, Real.sqrt_sq_eq_abs]

lemma cross2_sub_scaled (P Q : ℝ × ℝ) (l : ℝ) :
    cross2 (Q - P) (l • Q - P) = (1 - l) * cross2 P Q := by
  simp [cross2, Prod.smul_fst, Prod.smul_snd]
  ring

lemma stationRot_topext (p : Params) (hax : p.angle_x = 0) (v : V3) :
    stationRot p (p.fn + 1) v = rotY (deg2rad p.angle_y) v := by
  rw [stationRot, hax, deg2rad_zero, mul_zero, rotX_zero,
    stationT_last p (by omega), one_mul]

lemma capUnitNormal_build (p : Params) (hv : ValidParams p)
    (hax : p.angle_x = 0) (j : ℕ) :
    capUnitNormal (build p hv.fnBound) j =
      ⟨Real.sin (deg2rad p.angle_y), 0, Real.cos (deg2rad p.angle_y)⟩ := by
  have hi : (build p hv.fnBound).S - 1 = p.fn + 1 := rfl
  have hr : (build p hv.fnBound).rot = stationRot p := rfl
  have hc : (build p hv.fnBound).center = stationCenter p := rfl
  have hp : (build p hv.fnBound).poly = stationPoly p := rfl
  have hl : (build p hv.fnBound).lam = stationLam p := rfl
  have hBA : outerVertex (build p hv.fnBound) (p.fn + 1) (j + 1) -
      outerVertex (build p hv.fnBound) (p.fn + 1) j =
      rotY (deg2rad p.angle_y)
        (embed2 (stationPoly p (p.fn + 1) (j + 1) - stationPoly p (p.fn + 1) j)) := by
    rw [outerVertex, outerVertex, hr, hc, hp, stationRot_topext p hax,
      stationRot_topext p hax, V3.add_sub_add, rotY_embed_sub]
  have hCA : innerVertex (build p hv.fnBound) (p.fn + 1) (j + 1) -
      outerVertex (build p hv.fnBound) (p.fn + 1) j =
      rotY (deg2rad p.angle_y)
        (embed2 (stationLam p (p.fn + 1) • stationPoly p (p.fn + 1) (j + 1) -
          stationPoly p (p.fn + 1) j)) := by
    rw [innerVertex, outerVertex, innerPoly, hr, hc, hp, hl,
      stationRot_topext p hax, stationRot_topext p hax, V3.add_sub_add,
      rotY_embed_sub]
  have hwpos : 0 < cross2 (stationPoly p (p.fn + 1) j)
      (stationPoly p (p.fn + 1) (j + 1)) := by
    rw [cross2_stationPoly p (by have := hv.fnBound; omega) (p.fn + 1) j]
    exact mul_pos (mul_pos (stationRadius_pos p hv (p.fn + 1) j)
      (stationRadius_pos p hv (p.fn + 1) (j + 1)))
      (sin_two_pi_div_pos hv.fnBound)
  have hl1 := stationLam_lt_one p hv (p.fn + 1)
  have hw2 : 0 < cross2
      (stationPoly p (p.fn + 1) (j + 1) - stationPoly p (p.fn + 1) j)
      (stationLam p (p.fn + 1) • stationPoly p (p.fn + 1) (j + 1) -
        stationPoly p (p.fn + 1) j) := by
    rw [cross2_sub_scaled]
    exact mul_pos (by linarith) hwpos
  rw [capUnitNormal, capNormal, hi, hBA, hCA, cross3_rotY_planar,
    norm3_tilted, cross2_sub_scaled, abs_of_pos (by
      rw [cross2_sub_scaled] at hw2
      exact hw2)]
  have hX : cross2 (stationPoly p (p.fn + 1) j)
      (stationPoly p (p.fn + 1) (j + 1)) ≠ 0 := ne_of_gt hwpos
  have hL : (1 : ℝ) - stationLam p (p.fn + 1) ≠ 0 := by linarith
  ext <;> simp <;> field_simp <;> exact Or.inl (mul_comm _ _)

/-! ### Degenerate prism case -/

lemma bottomRadius_eq_top (p : Params) (hsh : p.bottom_shape = p.top_shape)
    (hw : p.bottom_width = p.top_width) (hd : p.bottom_depth = p.top_depth)
    (hf : p.bottom_fit = p.top_fit) (a : ℝ) :
    bottomRadius p a = topRadius p a := by
  rw [bottomRadius, topRadius, hsh, hw, hd, hf]

lemma stationPoly_prism (p : Params) (hsh : p.bottom_shape = p.top_shape)
    (hw : p.bottom_width = p.top_width) (hd : p.bottom_depth = p.top_depth)
    (hf : p.bottom_fit = p.top_fit) (i j : ℕ) :
    stationPoly p i j = bottomPolygon p j := by
  have h := bottomRadius_eq_top p hsh hw hd hf (theta p.fn j)
  rw [stationPoly, bottomPolygon, stationRadius, ← h]
  have h2 : (1 - stationMix p i) * bottomRadius p (theta p.fn j) +
      stationMix p i * bottomRadius p (theta p.fn j) =
      bottomRadius p (theta p.fn j) := by ring
  rw [h2]

lemma center_x_prism (p : Params) (hox : p.offset_x = 0)
    (hax : p.angle_x = 0) (hay : p.angle_y = 0) (i : ℕ) :
    (stationCenter p i).x = 0 := by
  rcases Nat.eq_zero_or_pos i with h0 | h0
  · subst h0
    simp [stationCenter]
  · rcases le_or_lt i p.fn with h2 | h2
    · have hne : i ≠ 0 := by omega
      simp [stationCenter, hne, h2, hox]
    · rw [center_top_eq p h2, topAxis_vertical p hax hay]
      simp [hox]

lemma center_y_prism (p : Params) (hoy : p.offset_y = 0)
    (hax : p.angle_x = 0) (hay : p.angle_y = 0) (i : ℕ) :
    (stationCenter p i).y = 0 := by
  rcases Nat.eq_zero_or_pos i with h0 | h0
  · subst h0
    simp [stationCenter]
  · rcases le_or_lt i p.fn with h2 | h2
    · have hne : i ≠ 0 := by omega
      simp [stationCenter, hne, h2, hoy]
    · rw [center_top_eq p h2, topAxis_vertical p hax hay]
      simp [hoy]

/-! ### The harness driver -/

lemma generateStlArgs_foldl (ps : List (String × PyVal))
    (acc : List String) :
    ps.foldl (fun args kv => args ++ dFlag kv) acc = acc ++ ps.bind dFlag := by
  induction ps generalizing acc with
  | nil => simp
  | cons kv tl ih =>
      simp only [List.foldl_cons, List.cons_bind]
      rw [ih, List.append_assoc]

/-! ### Acceptance of the concrete scenarios -/

lemma validParams_standard (p : Params)
    (hb : p.bottom_fit = FitMode.standard) (ht : p.top_fit = FitMode.standard)
    (h1 : 0 < p.transition_height) (h2 : 0 ≤ p.bottom_extension)
    (h3 : 0 ≤ p.top_extension) (h4 : 0 < p.bottom_width)
    (h5 : 0 < p.bottom_depth) (h6 : 0 < p.top_width) (h7 : 0 < p.top_depth)
    (h8 : 0 < p.wall_thickness) (h9 : 2 * p.wall_thickness < minNominal p)
    (h10 : 0 ≤ p.curve_tension) (h11 : p.curve_tension ≤ 1)
    (h12 : 3 ≤ p.fn) (h13 : |p.angle_x| < 90) (h14 : |p.angle_y| < 90) :
    ValidParams p :=
  ⟨h1, h2, h3, h4, h5, h6, h7, h8, h9, h10, h11, h12, h13, h14,
   fun a => by
     rw [bottomRadius_standard p hb]
     exact shapeRadius_pos _ h4 h5 a,
   fun a => by
     rw [topRadius_standard p ht]
     exact shapeRadius_pos _ h6 h7 a⟩

lemma pDemo_valid : ValidParams pDemo :=
  validParams_standard pDemo rfl rfl (by norm_num [pDemo]) (by norm_num [pDemo])
    (by norm_num [pDemo]) (by norm_num [pDemo]) (by norm_num [pDemo])
    (by norm_num [pDemo]) (by norm_num [pDemo]) (by norm_num [pDemo])
    (by norm_num [pDemo, minNominal, bottomMinWidth, topMinWidth, minWidth])
    (by norm_num [pDemo]) (by norm_num [pDemo]) (by norm_num [pDemo])
    (by norm_num [pDemo]) (by norm_num [pDemo])

lemma pDemo2_valid : ValidParams pDemo2 :=
  validParams_standard pDemo2 rfl rfl (by norm_num [pDemo2]) (by norm_num [pDemo2])
    (by norm_num [pDemo2]) (by norm_num [pDemo2]) (by norm_num [pDemo2])
    (by norm_num [pDemo2]) (by norm_num [pDemo2]) (by norm_num [pDemo2])
    (by norm_num [pDemo2, minNominal, bottomMinWidth, topMinWidth, minWidth])
    (by norm_num [pDemo2]) (by norm_num [pDemo2]) (by norm_num [pDemo2])
    (by norm_num [pDemo2]) (by norm_num [pDemo2])

lemma pDemo3_valid : ValidParams pDemo3 :=
  validParams_standard pDemo3 rfl rfl (by norm_num [pDemo3]) (by norm_num [pDemo3])
    (by norm_num [pDemo3]) (by norm_num [pDemo3]) (by norm_num [pDemo3])
    (by norm_num [pDemo3]) (by norm_num [pDemo3]) (by norm_num [pDemo3])
    (by norm_num [pDemo3, minNominal, bottomMinWidth, topMinWidth, minWidth])
    (by norm_num [pDemo3]) (by norm_num [pDemo3]) (by norm_num [pDemo3])
    (by norm_num [pDemo3]) (by norm_num [pDemo3])

lemma pDemo4_valid : ValidParams pDemo4 :=
  validParams_standard pDemo4 rfl rfl (by norm_num [pDemo4]) (by norm_num [pDemo4])
    (by norm_num [pDemo4]) (by norm_num [pDemo4]) (by norm_num [pDemo4])
    (by norm_num [pDemo4]) (by norm_num [pDemo4]) (by norm_num [pDemo4])
    (by norm_num [pDemo4, minNominal, bottomMinWidth, topMinWidth, minWidth])
    (by norm_num [pDemo4]) (by norm_num [pDemo4]) (by norm_num [pDemo4])
    (by norm_num [pDemo4]) (by norm_num [pDemo4])

lemma pDemo5_valid : ValidParams pDemo5 :=
  validParams_standard pDemo5 rfl rfl (by norm_num [pDemo5]) (by norm_num [pDemo5])
    (by norm_num [pDemo5]) (by norm_num [pDemo5]) (by norm_num [pDemo5])
    (by norm_num [pDemo5]) (by norm_num [pDemo5]) (by norm_num [pDemo5])
    (by norm_num [pDemo5, minNominal, bottomMinWidth, topMinWidth, minWidth])
    (by norm_num [pDemo5]) (by norm_num [pDemo5]) (by norm_num [pDemo5])
    (by norm_num [pDemo5]) (by norm_num [pDemo5])

lemma pC7_valid : ValidParams pC7 :=
  validParams_standard pC7 rfl rfl (by norm_num [pC7]) (by norm_num [pC7])
    (by norm_num [pC7]) (by norm_num [pC7]) (by norm_num [pC7])
    (by norm_num [pC7]) (by norm_num [pC7]) (by norm_num [pC7])
    (by norm_num [pC7, minNominal, bottomMinWidth, topMinWidth, minWidth])
    (by norm_num [pC7]) (by norm_num [pC7]) (by norm_num [pC7])
    (by norm_num [pC7]) (by norm_num [pC7])

/-! ### The claims -/

/-- C1: for every accepted (valid) Parameter Set, the generated solid
boundary mesh is watertight (each directed edge appears in exactly one
triangle, its reverse in exactly one other, so every edge borders
exactly two triangles), winding-consistent, and its enclosed volume is
strictly positive. -/
theorem C1_manifold_watertight (p : Params) (M : MeshData)
    (h : generate p = Except.ok M) :
    (∀ x : TriSlot (2 * M.S) M.n,
        meshEdgeCount M (meshSlotEdge M x) = 1 ∧
          meshEdgeCount M (meshSlotEdge M x).swap = 1 ∧
          meshEdgeCount M (meshSlotEdge M x) +
            meshEdgeCount M (meshSlotEdge M x).swap = 2) ∧
      0 < meshVolume M := by
  by_cases hv : ValidParams p
  · rw [generate, dif_pos hv] at h
    injection h with hM
    subst hM
    constructor
    · intro x
      haveI i1 : NeZero (2 * (build p hv.fnBound).S) :=
        ⟨by have := (build p hv.fnBound).hS; omega⟩
      haveI i2 : NeZero (build p hv.fnBound).n :=
        ⟨by have := (build p hv.fnBound).hn; omega⟩
      have h1 := edgeCount_slotEdge (2 * (build p hv.fnBound).S)
        (build p hv.fnBound).n (by have := (build p hv.fnBound).hS; omega)
        (by have := (build p hv.fnBound).hn; omega) x
      have h2 := edgeCount_swap (2 * (build p hv.fnBound).S)
        (build p hv.fnBound).n (by have := (build p hv.fnBound).hS; omega)
        (by have := (build p hv.fnBound).hn; omega) x
      have e1 : meshEdgeCount (build p hv.fnBound)
          (meshSlotEdge (build p hv.fnBound) x) = 1 := h1
      have e2 : meshEdgeCount (build p hv.fnBound)
          (meshSlotEdge (build p hv.fnBound) x).swap = 1 := h2
      refine ⟨e1, e2, ?_⟩
      rw [e1, e2]
    · exact meshVolume_build_pos p hv
  · rw [generate, dif_neg hv] at h
    exact absurd h (by simp)

/-- C1 witness at a concrete accepted parameter set and edge slot. -/
theorem C1_manifold_watertight_witness :
    meshEdgeCount (build pDemo pDemo_valid.fnBound)
      (meshSlotEdge (build pDemo pDemo_valid.fnBound) ((0, 0), false, 0)) = 1 ∧
      0 < meshVolume (build pDemo pDemo_valid.fnBound) := by
  have h := C1_manifold_watertight pDemo (build pDemo pDemo_valid.fnBound)
    (by rw [generate, dif_pos pDemo_valid])
  exact ⟨(h.1 ((0, 0), false, 0)).1, h.2⟩

/-- C2: with transition height 120, bottom extension 25, top extension
35 and zero offsets and angles, the mesh's bounding range along the
sweep axis is exactly [-25, 155], hence within 0.1 units. -/
theorem C2_height_extensions (p : Params) (M : MeshData)
    (h : generate p = Except.ok M) (hh : p.transition_height = 120)
    (hb : p.bottom_extension = 25) (ht : p.top_extension = 35)
    (hox : p.offset_x = 0) (hoy : p.offset_y = 0) (hax : p.angle_x = 0)
    (hay : p.angle_y = 0) :
    |meshMinZ M - (-25)| ≤ 0.1 ∧ |meshMaxZ M - 155| ≤ 0.1 := by
  by_cases hv : ValidParams p
  · rw [generate, dif_pos hv] at h
    injection h with hM
    subst hM
    rw [meshMinZ_build p hv hax hay, meshMaxZ_build p hv hax hay, hb, hh, ht]
    norm_num
  · rw [generate, dif_neg hv] at h
    exact absurd h (by simp)

/-- C2 witness at the concrete scenario parameters. -/
theorem C2_height_extensions_witness :
    |meshMinZ (build pDemo2 pDemo2_valid.fnBound) - (-25)| ≤ 0.1 ∧
      |meshMaxZ (build pDemo2 pDemo2_valid.fnBound) - 155| ≤ 0.1 :=
  C2_height_extensions pDemo2 (build pDemo2 pDemo2_valid.fnBound)
    (by rw [generate, dif_pos pDemo2_valid]) rfl rfl rfl rfl rfl rfl rfl

/-- C3: with offsets (75, -40), transition height 100 and top extension
10 under zero angles, the cross-section cut through the top extension
(the slice the harness takes at z = 109) has centroid (75, -40), hence
within 1.0 unit in each coordinate. -/
theorem C3_lateral_offsets (p : Params) (M : MeshData)
    (h : generate p = Except.ok M) (hox : p.offset_x = 75)
    (hoy : p.offset_y = -40) (hh : p.transition_height = 100)
    (ht : p.top_extension = 10) (hax : p.angle_x = 0) (hay : p.angle_y = 0)
    (m : ℕ) (hm : m ≠ 0) (hfn2 : p.fn = 2 * m) :
    |(sectionCentroid M (M.S - 1)).1 - 75| ≤ 1 ∧
      |(sectionCentroid M (M.S - 1)).2 - (-40)| ≤ 1 := by
  by_cases hv : ValidParams p
  · rw [generate, dif_pos hv] at h
    injection h with hM
    subst hM
    have hS1 : (build p hv.fnBound).S - 1 = p.fn + 1 := rfl
    rw [hS1, sectionCentroid_build p hv hax hay (p.fn + 1) m hm hfn2]
    constructor
    · show |(stationCenter p (p.fn + 1)).x - 75| ≤ 1
      rw [center_x_topext p hax hay, hox]
      norm_num
    · show |(stationCenter p (p.fn + 1)).y - (-40)| ≤ 1
      rw [center_y_topext p hax hay, hoy]
      norm_num
  · rw [generate, dif_neg hv] at h
    exact absurd h (by simp)

/-- C3 witness at the concrete scenario parameters. -/
theorem C3_lateral_offsets_witness :
    |(sectionCentroid (build pDemo3 pDemo3_valid.fnBound)
        ((build pDemo3 pDemo3_valid.fnBound).S - 1)).1 - 75| ≤ 1 ∧
      |(sectionCentroid (build pDemo3 pDemo3_valid.fnBound)
        ((build pDemo3 pDemo3_valid.fnBound).S - 1)).2 - (-40)| ≤ 1 :=
  C3_lateral_offsets pDemo3 (build pDemo3 pDemo3_valid.fnBound)
    (by rw [generate, dif_pos pDemo3_valid]) rfl rfl rfl rfl rfl rfl
    16 (by norm_num) rfl

/-- C4: with angle_y = 45 degrees, angle_x = 0 and no top extension,
every face of the top rim cap has unit normal whose componentwise
absolute values match (sin 45, 0, cos 45) within 0.1. -/
theorem C4_exit_angle (p : Params) (M : MeshData)
    (h : generate p = Except.ok M) (hax : p.angle_x = 0)
    (hay : p.angle_y = 45) (ht : p.top_extension = 0) (j : ℕ) :
    |abs (capUnitNormal M j).x - Real.sin (deg2rad 45)| ≤ 0.1 ∧
      |(capUnitNormal M j).y| ≤ 0.1 ∧
      |abs (capUnitNormal M j).z - Real.cos (deg2rad 45)| ≤ 0.1 := by
  by_cases hv : ValidParams p
  · rw [generate, dif_pos hv] at h
    injection h with hM
    subst hM
    rw [capUnitNormal_build p hv hax j, hay]
    have hd : deg2rad 45 = Real.pi / 4 := by
      rw [deg2rad]
      ring
    rw [hd]
    have hsnn : 0 ≤ Real.sin (Real.pi / 4) := by
      rw [Real.sin_pi_div_four]
      positivity
    have hcnn : 0 ≤ Real.cos (Real.pi / 4) := by
      rw [Real.cos_pi_div_four]
      positivity
    refine ⟨?_, ?_, ?_⟩
    · show |abs (Real.sin (Real.pi / 4)) - Real.sin (Real.pi / 4)| ≤ 0.1
      rw [abs_of_nonneg hsnn, sub_self, abs_zero]
      norm_num
    · show |(0 : ℝ)| ≤ 0.1
      norm_num
    · show |abs (Real.cos (Real.pi / 4)) - Real.cos (Real.pi / 4)| ≤ 0.1
      rw [abs_of_nonneg hcnn, sub_self, abs_zero]
      norm_num
  · rw [generate, dif_neg hv] at h
    exact absurd h (by simp)

/-- C4 witness at the concrete scenario parameters. -/
theorem C4_exit_angle_witness :
    |abs (capUnitNormal (build pDemo4 pDemo4_valid.fnBound) 0).x -
        Real.sin (deg2rad 45)| ≤ 0.1 ∧
      |(capUnitNormal (build pDemo4 pDemo4_valid.fnBound) 0).y| ≤ 0.1 ∧
      |abs (capUnitNormal (build pDemo4 pDemo4_valid.fnBound) 0).z -
        Real.cos (deg2rad 45)| ≤ 0.1 :=
  C4_exit_angle pDemo4 (build pDemo4 pDemo4_valid.fnBound)
    (by rw [generate, dif_pos pDemo4_valid]) rfl rfl rfl 0

/-- C5: under the standard fit, the slice through the bottom extension
of a circular opening of nominal width 40 has bounding-box width
exactly 40, and the slice through the top extension of a square opening
of nominal width 80 has bounding-box width exactly 80, hence both
within 0.5 units. -/
theorem C5_shape_fit (p : Params) (M : MeshData)
    (h : generate p = Except.ok M) (hbs : p.bottom_shape = Shape.circle)
    (hbw : p.bottom_width = 40) (hbf : p.bottom_fit = FitMode.standard)
    (hts : p.top_shape = Shape.rectangle) (htw : p.top_width = 80)
    (htd : p.top_depth = 80) (htf : p.top_fit = FitMode.standard)
    (hox : p.offset_x = 0) (hoy : p.offset_y = 0) (hax : p.angle_x = 0)
    (hay : p.angle_y = 0) (hh : p.transition_height = 100)
    (hbe : p.bottom_extension = 10) (hte : p.top_extension = 10)
    (m : ℕ) (hm : m ≠ 0) (hfn2 : p.fn = 2 * m) :
    |sliceWidth M 0 - 40| ≤ 0.5 ∧ |sliceWidth M (M.S - 1) - 80| ≤ 0.5 := by
  by_cases hv : ValidParams p
  · rw [generate, dif_pos hv] at h
    injection h with hM
    subst hM
    have hpx : ∀ i j, (stationPoly p i j).1 =
        stationRadius p i j * Real.cos (theta p.fn j) := fun i j => rfl
    have hwb : sliceWidth (build p hv.fnBound) 0 = 40 := by
      refine sliceWidth_station p hv hax hay hm hfn2
        (by simp [stationCenter]) (by norm_num) ?_ ?_ ?_
      · intro j
        rw [hpx, stationRadius_bottom, bottomRadius_standard p hbf, hbs, hbw]
        exact shapeRadius_cos_le Shape.circle (by norm_num)
          hv.bottom_depth_pos _
      · rw [hpx, stationRadius_bottom, bottomRadius_standard p hbf, hbs, hbw,
          theta_zero, Real.cos_zero]
        show (40 : ℝ) / 2 * 1 = 40 / 2
        ring
      · rw [hpx, stationRadius_bottom, bottomRadius_standard p hbf, hbs, hbw,
          hfn2, theta_half m hm, Real.cos_pi]
        show (40 : ℝ) / 2 * (-1) = -(40 / 2)
        ring
    have hS1 : (build p hv.fnBound).S - 1 = p.fn + 1 := rfl
    have hwt : sliceWidth (build p hv.fnBound) (p.fn + 1) = 80 := by
      refine sliceWidth_station p hv hax hay hm hfn2 ?_ (by norm_num) ?_ ?_ ?_
      · rw [center_x_topext p hax hay, hox]
      · intro j
        rw [hpx, stationRadius_top p (by omega), topRadius_standard p htf,
          hts, htw, htd]
        exact shapeRadius_cos_le Shape.rectangle (by norm_num) (by norm_num) _
      · have hax0 : shapeRadius Shape.rectangle (80 : ℝ) 80 0 = 80 / 2 :=
          shapeRadius_axis Shape.rectangle (by norm_num) (by norm_num)
            (by rw [Real.cos_zero, abs_one]) Real.sin_zero
        rw [hpx, stationRadius_top p (by omega), topRadius_standard p htf,
          hts, htw, htd, theta_zero, hax0, Real.cos_zero]
        ring
      · have haxpi : shapeRadius Shape.rectangle (80 : ℝ) 80 Real.pi = 80 / 2 :=
          shapeRadius_axis Shape.rectangle (by norm_num) (by norm_num)
            (by rw [Real.cos_pi, abs_neg, abs_one]) Real.sin_pi
        rw [hpx, stationRadius_top p (by omega), topRadius_standard p htf,
          hts, htw, htd, hfn2, theta_half m hm, haxpi, Real.cos_pi]
        ring
    rw [hS1, hwb, hwt]
    norm_num
  · rw [generate, dif_neg hv] at h
    exact absurd h (by simp)

/-- C5 witness at the concrete scenario parameters. -/
theorem C5_shape_fit_witness :
    |sliceWidth (build pDemo5 pDemo5_valid.fnBound) 0 - 40| ≤ 0.5 ∧
      |sliceWidth (build pDemo5 pDemo5_valid.fnBound)
        ((build pDemo5 pDemo5_valid.fnBound).S - 1) - 80| ≤ 0.5 :=
  C5_shape_fit pDemo5 (build pDemo5 pDemo5_valid.fnBound)
    (by rw [generate, dif_pos pDemo5_valid]) rfl rfl rfl rfl rfl rfl rfl rfl
    rfl rfl rfl rfl rfl rfl 32 (by norm_num) rfl

/-- C6: a Parameter Set whose wall thickness exceeds half the smallest
cross-section minimal width is rejected with a geometry-collapse error
and generation never returns a mesh (in particular none of vanishing
volume). -/
theorem C6_wall_rejection (p : Params)
    (hbad : minNominal p / 2 < p.wall_thickness) :
    generate p = Except.error GenError.geometryCollapse ∧
      ∀ M : MeshData, generate p ≠ Except.ok M := by
  have hnv : ¬ ValidParams p := fun hv => by
    have := hv.wall_fits
    linarith
  have hre : rejectError p = GenError.geometryCollapse := by
    rw [rejectError, if_pos (by linarith)]
  constructor
  · rw [generate, dif_neg hnv, hre]
  · intro M hM
    rw [generate, dif_neg hnv] at hM
    simp at hM

/-- C6 witness: wall 30 against openings of minimal width 40. -/
theorem C6_wall_rejection_witness :
    generate pBad6 = Except.error GenError.geometryCollapse ∧
      ∀ M : MeshData, generate pBad6 ≠ Except.ok M :=
  C6_wall_rejection pBad6
    (by norm_num [pBad6, minNominal, bottomMinWidth, topMinWidth, minWidth])

/-- C7 counterexample: a Parameter Set satisfying all the conditions the
claim lists (zero offsets and angles, equal shapes, equal widths) whose
loft is not a prism: the top station's cross-section differs from the
input polygon, because the two rectangular openings have different
depths. -/
theorem C7_counterexample :
    ValidParams pC7 ∧ pC7.offset_x = 0 ∧ pC7.offset_y = 0 ∧
      pC7.angle_x = 0 ∧ pC7.angle_y = 0 ∧
      pC7.bottom_shape = pC7.top_shape ∧
      pC7.bottom_width = pC7.top_width ∧
      stationPoly pC7 (pC7.fn + 1) 1 ≠ bottomPolygon pC7 1 := by
  refine ⟨pC7_valid, rfl, rfl, rfl, rfl, rfl, rfl, ?_⟩
  have hth : theta pC7.fn 1 = Real.pi / 2 := by
    show theta 4 1 = Real.pi / 2
    rw [theta]
    push_cast
    ring
  intro h
  have h2 := congrArg Prod.snd h
  have e1 : (stationPoly pC7 (pC7.fn + 1) 1).2 = 40 := by
    have hpy : (stationPoly pC7 (pC7.fn + 1) 1).2 =
        stationRadius pC7 (pC7.fn + 1) 1 * Real.sin (theta pC7.fn 1) := rfl
    rw [hpy, stationRadius_top pC7 (by omega) 1, topRadius_standard pC7 rfl,
      hth]
    show 1 / max (2 * |Real.cos (Real.pi / 2)| / 40)
        (2 * |Real.sin (Real.pi / 2)| / 80) * Real.sin (Real.pi / 2) = 40
    rw [Real.cos_pi_div_two, Real.sin_pi_div_two, abs_zero, abs_one]
    rw [max_eq_right (by norm_num : 2 * (0 : ℝ) / 40 ≤ 2 * 1 / 80)]
    norm_num
  have e2 : (bottomPolygon pC7 1).2 = 20 := by
    have hpy : (bottomPolygon pC7 1).2 =
        bottomRadius pC7 (theta pC7.fn 1) * Real.sin (theta pC7.fn 1) := rfl
    rw [hpy, bottomRadius_standard pC7 rfl, hth]
    show 1 / max (2 * |Real.cos (Real.pi / 2)| / 40)
        (2 * |Real.sin (Real.pi / 2)| / 40) * Real.sin (Real.pi / 2) = 20
    rw [Real.cos_pi_div_two, Real.sin_pi_div_two, abs_zero, abs_one]
    rw [max_eq_right (by norm_num : 2 * (0 : ℝ) / 40 ≤ 2 * 1 / 40)]
    norm_num
  rw [e1, e2] at h2
  norm_num at h2

/-- C7 (amended): with zero offsets and zero angles and the two
openings given identical shape, width, depth and fit parameters, every
station's cross-section equals the input polygon and the centerline is
the vertical axis with identity frames, so the loft is a straight
prism; this follows from the one general interpolation, which has no
special case for it. -/
theorem C7_prism (p : Params) (hox : p.offset_x = 0) (hoy : p.offset_y = 0)
    (hax : p.angle_x = 0) (hay : p.angle_y = 0)
    (hsh : p.bottom_shape = p.top_shape) (hw : p.bottom_width = p.top_width)
    (hd : p.bottom_depth = p.top_depth) (hf : p.bottom_fit = p.top_fit)
    (i j : ℕ) :
    stationPoly p i j = bottomPolygon p j ∧
      (stationCenter p i).x = 0 ∧ (stationCenter p i).y = 0 ∧
      ∀ v : V3, stationRot p i v = v :=
  ⟨stationPoly_prism p hsh hw hd hf i j, center_x_prism p hox hax hay i,
    center_y_prism p hoy hax hay i, stationRot_id p hax hay i⟩

/-- C7 witness: identical square openings give a straight prism. -/
theorem C7_prism_witness :
    stationPoly pPrism 2 1 = bottomPolygon pPrism 1 ∧
      (stationCenter pPrism 2).x = 0 ∧ (stationCenter pPrism 2).y = 0 ∧
      stationRot pPrism 2 ⟨1, 2, 3⟩ = ⟨1, 2, 3⟩ := by
  have h := C7_prism pPrism rfl rfl rfl rfl rfl rfl rfl rfl 2 1
  exact ⟨h.1, h.2.1, h.2.2.1, h.2.2.2 ⟨1, 2, 3⟩⟩

/-- C8: generation is deterministic: the pipeline is a pure function of
the Parameter Set (the shallow embedding has no mutable state or
effects), so two runs on equal inputs produce equal results. -/
theorem C8_deterministic (p q : Params) (h : p = q) :
    generate p = generate q := by
  rw [h]

/-- C8 witness: two runs on the same concrete parameters agree. -/
theorem C8_deterministic_witness : generate pDemo = generate pDemo :=
  C8_deterministic pDemo pDemo rfl

/-- C9: the OpenSCAD command line is the fixed head (command, the
manifold backend flag, output and input file names) followed, for each
parameter in dict order, by a -D flag whose argument quotes the value
exactly when it is a string. -/
theorem C9_command_line (cmd : String) (ps : List (String × PyVal)) :
    generateStlArgs cmd ps =
      [cmd, "--enable=manifold", "-o", STL_FILE, SCAD_FILE] ++ ps.bind dFlag ∧
      (∀ k s, dFlag (k, PyVal.str s) = ["-D", k ++ "=\"" ++ s ++ "\""]) ∧
      (∀ k r, dFlag (k, PyVal.raw r) = ["-D", k ++ "=" ++ r]) :=
  ⟨generateStlArgs_foldl ps _, fun _ _ => rfl, fun _ _ => rfl⟩

/-- C10: a non-zero OpenSCAD exit status makes `generate_stl` raise the
checked-subprocess error, and no mesh is loaded or returned; a mesh is
only returned when the subprocess succeeds. -/
theorem C10_checked_run {A : Type} (exitCode : ℤ) (mesh : A)
    (h : exitCode ≠ 0) :
    generateStlRun exitCode mesh = Except.error RunError.calledProcessError ∧
      ∀ m : A, generateStlRun exitCode mesh ≠ Except.ok m := by
  have he : generateStlRun exitCode mesh =
      Except.error RunError.calledProcessError := by
    rw [generateStlRun, runChecked, if_neg h]
    rfl
  refine ⟨he, fun m hm => ?_⟩
  rw [he] at hm
  exact Except.noConfusion hm

/-- C10 witness at exit status 1. -/
theorem C10_checked_run_witness :
    generateStlRun (1 : ℤ) (0 : ℕ) = Except.error RunError.calledProcessError ∧
      ∀ m : ℕ, generateStlRun (1 : ℤ) (0 : ℕ) ≠ Except.ok m :=
  C10_checked_run 1 0 (by decide)

end MatrixFlow
